import Mathlib

/-!
# Verification of the Twenty CRM MCP server's schema compiler and payload sanitizer

Shallow embedding of the schema-to-contract compiler (`schema-loader.js`),
the payload sanitizer, result normalizer, tool synthesis and composite
note-linking orchestration (`index.js`) of the twenty-crm-mcp-server
repository, together with theorems settling the specification claims.

JavaScript values are modelled by the inductive `JValue`; machine numbers are
modelled as integers (`Int`), since every value the verified code paths
inspect is either an id-like integer or a string.  JavaScript objects are
association lists in insertion order; real JS objects never repeat a key, and
no definition below relies on repeated keys.
-/

/-- A JavaScript runtime value, as far as the verified code observes it:
`null`, `undefined`, booleans, numbers (modelled as integers), strings,
arrays, and objects (association lists in insertion order). -/
inductive JValue where
  | null : JValue
  | undefined : JValue
  | bool : Bool → JValue
  | num : Int → JValue
  | str : String → JValue
  | arr : List JValue → JValue
  | obj : List (String × JValue) → JValue

namespace JValue

mutual

/-- Structural equality test on `JValue`; recursion is split over the nested
`List` positions so that termination is structural. -/
def beq : JValue → JValue → Bool
  | .null, .null => true
  | .undefined, .undefined => true
  | .bool a, .bool b => a == b
  | .num a, .num b => a == b
  | .str a, .str b => a == b
  | .arr a, .arr b => beqList a b
  | .obj a, .obj b => beqFields a b
  | _, _ => false

def beqList : List JValue → List JValue → Bool
  | [], [] => true
  | x :: xs, y :: ys => beq x y && beqList xs ys
  | _, _ => false

def beqFields : List (String × JValue) → List (String × JValue) → Bool
  | [], [] => true
  | (k, v) :: xs, (l, w) :: ys => k == l && beq v w && beqFields xs ys
  | _, _ => false

end

mutual

theorem beq_iff_eq : ∀ a b : JValue, beq a b = true ↔ a = b
  | .null, b => by cases b <;> simp [beq]
  | .undefined, b => by cases b <;> simp [beq]
  | .bool _, b => by cases b <;> simp [beq]
  | .num _, b => by cases b <;> simp [beq]
  | .str _, b => by cases b <;> simp [beq]
  | .arr x, b => by
      cases b <;> simp [beq]
      exact beqList_iff_eq x _
  | .obj x, b => by
      cases b <;> simp [beq]
      exact beqFields_iff_eq x _

theorem beqList_iff_eq : ∀ a b : List JValue, beqList a b = true ↔ a = b
  | [], [] => by simp [beqList]
  | [], _ :: _ => by simp [beqList]
  | _ :: _, [] => by simp [beqList]
  | x :: xs, y :: ys => by
      simp [beqList, beq_iff_eq x y, beqList_iff_eq xs ys]

theorem beqFields_iff_eq :
    ∀ a b : List (String × JValue), beqFields a b = true ↔ a = b
  | [], [] => by simp [beqFields]
  | [], _ :: _ => by simp [beqFields]
  | _ :: _, [] => by simp [beqFields]
  | (k, v) :: xs, (l, w) :: ys => by
      simp [beqFields, beq_iff_eq v w, beqFields_iff_eq xs ys, and_assoc]

end

instance : DecidableEq JValue := fun a b =>
  decidable_of_iff (beq a b = true) (beq_iff_eq a b)

instance : BEq JValue := ⟨fun a b => decide (a = b)⟩

/-- JavaScript truthiness of a value. -/
def truthy : JValue → Bool
  | .null => false
  | .undefined => false
  | .bool b => b
  | .num n => n ≠ 0
  | .str s => ¬ s.isEmpty
  | .arr _ => true
  | .obj _ => true

/-- JavaScript `a || b` on modelled values. -/
def jsOr (a b : JValue) : JValue := if truthy a then a else b

end JValue

/-- `String.prototype.trim`: strip leading and trailing whitespace.
Implemented over the character list so that it reduces in the kernel
(`String.trim` itself is defined by well-founded recursion and does not). -/
def jsTrim (s : String) : String :=
  String.mk (((s.data.dropWhile Char.isWhitespace).reverse.dropWhile
    Char.isWhitespace).reverse)

/-- `String.prototype.toLowerCase` restricted to per-character lowering, over
the character list so that it reduces in the kernel (`String.toLower` is
defined via `String.mapAux`, which does not). -/
def jsToLower (s : String) : String :=
  String.mk (s.data.map Char.toLower)

/-- `String.prototype.endsWith`, over the character lists so that it reduces
in the kernel. -/
def jsEndsWith (s suffix : String) : Bool :=
  suffix.data.isSuffixOf s.data

/-- Property read `o.k` on an object's field list: the first binding of the
key, `none` when absent (JS yields `undefined`; callers distinguish the two
as the source does). -/
def jlookup (fields : List (String × JValue)) (key : String) : Option JValue :=
  (fields.find? (fun p => p.1 = key)).map (·.2)

/-- Property read `v.k` as JavaScript performs it: `undefined` when the key
is absent or the value is not an object.  (Reading a property of `null` or
`undefined` throws in JS; no verified code path does that.) -/
def jsGet (v : JValue) (key : String) : JValue :=
  match v with
  | .obj fields => (jlookup fields key).getD .undefined
  | _ => .undefined

/-- Assignment `o[key] = v` on an object's field list: overwrite in place
when present, append otherwise. -/
def objSet (fields : List (String × JValue)) (key : String) (v : JValue) :
    List (String × JValue) :=
  if fields.any (fun p => p.1 = key) then
    fields.map (fun p => if p.1 = key then (key, v) else p)
  else
    fields ++ [(key, v)]

/-- `delete o[key]`. -/
def objDelete (fields : List (String × JValue)) (key : String) :
    List (String × JValue) :=
  fields.filter (fun p => p.1 ≠ key)

/-- `key in o`. -/
def objHas (fields : List (String × JValue)) (key : String) : Bool :=
  fields.any (fun p => p.1 = key)

mutual

/-- `String(v)` / template-literal interpolation of a value. -/
def jsString : JValue → String
  | .null => "null"
  | .undefined => "undefined"
  | .bool b => if b then "true" else "false"
  | .num n => toString n
  | .str s => s
  | .arr xs => jsStringList xs
  | .obj _ => "[object Object]"

/-- `Array.prototype.toString`: elements joined with `","`, with `null` and
`undefined` elements rendered as the empty string. -/
def jsStringList : List JValue → String
  | [] => ""
  | [x] =>
      match x with
      | .null => ""
      | .undefined => ""
      | v => jsString v
  | x :: xs =>
      (match x with
       | .null => ""
       | .undefined => ""
       | v => jsString v) ++ "," ++ jsStringList xs

end

/-!
## Schema loader (`schema-loader.js`)

Data model of one metadata export and the contract compiler built on it.
-/

/-- `targetObjectMetadata` of a relation in the metadata export.  Fields the
source reads through `?.` chains are `JValue`s (`undefined` when absent). -/
structure TargetMeta where
  nameSingular : JValue := .undefined
  namePlural : JValue := .undefined
  labelSingular : JValue := .undefined
  labelPlural : JValue := .undefined

/-- The `relation` member of a RELATION field in the metadata export. -/
structure RelationDef where
  type : String
  targetObjectMetadata : Option TargetMeta := none

/-- One field record of the metadata export, with exactly the members the
loader reads. -/
structure FieldDef where
  name : String
  type : String
  label : JValue := .undefined
  description : JValue := .undefined
  isActive : Bool := true
  isSystem : Bool := false
  isNullable : Bool := true
  defaultValue : JValue := .undefined
  options : JValue := .undefined
  relation : Option RelationDef := none

/-- One object record of the metadata export. -/
structure ObjectDef where
  nameSingular : String
  namePlural : String
  labelSingular : JValue := .undefined
  labelPlural : JValue := .undefined
  description : JValue := .undefined
  isActive : Bool := true
  isSystem : Bool := false
  fields : List FieldDef := []

/-- The loaded `rest-metadata-objects.json` (its `data.objects` member);
`none` models an unloaded/missing export. -/
structure Metadata where
  objects : List ObjectDef

/-- `AUTO_DEFAULT_TOKENS` of the loader. -/
def AUTO_DEFAULT_TOKENS : List String :=
  ["now", "uuid", "incrementalposition", "currentuser", "autoincrement"]

/-- `EMPTY_STRING_TOKENS` of the loader. -/
def EMPTY_STRING_TOKENS : List String := ["''", "\"\""]

def isQuoteChar (c : Char) : Bool := c = '\'' || c = '"'

/-- `trimmed.replace(/^['"]|['"]$/g, '')`: drop one leading and one trailing
quote character. -/
def stripEdgeQuotes (s : String) : String :=
  let cs := s.data
  let cs1 :=
    match cs with
    | c :: rest => if isQuoteChar c then rest else cs
    | [] => []
  let cs2 :=
    match cs1.reverse with
    | c :: rest => if isQuoteChar c then rest.reverse else cs1
    | [] => []
  String.mk cs2

mutual

/-- `normalizeDefaultValue` of the loader; `none` models `undefined`
(default suppressed). -/
def normalizeDefaultValue : JValue → Option JValue
  | .null => none
  | .undefined => none
  | .str s =>
      let trimmed := jsTrim s
      if EMPTY_STRING_TOKENS.contains trimmed then some (.str "") else
      let stripped := stripEdgeQuotes trimmed
      if AUTO_DEFAULT_TOKENS.contains (jsToLower stripped) then none
      else some (.str stripped)
  | .arr items =>
      let normalizedArray := normalizeDefaultList items
      if normalizedArray.isEmpty then none else some (.arr normalizedArray)
  | .obj fields =>
      let normalizedObject := normalizeDefaultFields fields
      if normalizedObject.isEmpty then none else some (.obj normalizedObject)
  | v => some v

def normalizeDefaultList : List JValue → List JValue
  | [] => []
  | x :: xs =>
      match normalizeDefaultValue x with
      | some v => v :: normalizeDefaultList xs
      | none => normalizeDefaultList xs

def normalizeDefaultFields :
    List (String × JValue) → List (String × JValue)
  | [] => []
  | (k, v) :: xs =>
      match normalizeDefaultValue v with
      | some nv => (k, nv) :: normalizeDefaultFields xs
      | none => normalizeDefaultFields xs

end

namespace SchemaLoader

/-- `getObjectByName`: case-insensitive lookup by plural or singular name
among active objects. -/
def getObjectByName (metadata : Option Metadata) (name : String) :
    Option ObjectDef :=
  match metadata with
  | none => none
  | some md =>
      if name.isEmpty then none
      else
        let normalized := jsToLower name
        md.objects.find? (fun obj =>
          obj.isActive &&
            (jsToLower obj.namePlural = normalized ||
             jsToLower obj.nameSingular = normalized))

/-- The per-field filter of `getObjectFields`: active, non-system, and for
RELATION fields a relation type of `MANY_TO_ONE` or `ONE_TO_ONE`. -/
def fieldParticipates (field : FieldDef) : Bool :=
  if !field.isActive || field.isSystem then false
  else if field.type = "RELATION" then
    match field.relation with
    | some rel => rel.type = "MANY_TO_ONE" || rel.type = "ONE_TO_ONE"
    | none => false
  else true

/-- `getObjectFields`. -/
def getObjectFields (metadata : Option Metadata) (name : String) :
    List FieldDef :=
  match getObjectByName metadata name with
  | none => []
  | some obj => obj.fields.filter fieldParticipates

/-- The `typeMap` table of `mapFieldType`. -/
def typeMap : List (String × String) :=
  [("TEXT", "string"), ("UUID", "string"), ("EMAIL", "string"),
   ("PHONE", "string"), ("LINK", "string"), ("LINKS", "object"),
   ("NUMBER", "number"), ("NUMERIC", "number"), ("BOOLEAN", "boolean"),
   ("DATE_TIME", "string"), ("DATE", "string"), ("CURRENCY", "object"),
   ("SELECT", "string"), ("MULTI_SELECT", "array"), ("RATING", "string"),
   ("ADDRESS", "object"), ("FULL_NAME", "object"), ("ACTOR", "object"),
   ("EMAILS", "object"), ("PHONES", "object"), ("ARRAY", "array"),
   ("RAW_JSON", "object"), ("RICH_TEXT", "string"), ("POSITION", "number"),
   ("RELATION", "string")]

/-- `mapFieldType`, falling back to `"string"` for unknown kinds. -/
def mapFieldType (fieldType : String) : String :=
  ((typeMap.find? (fun p => p.1 = fieldType)).map (·.2)).getD "string"

/-- `/(Id)$/i.test(name)`. -/
def endsInIdCI (s : String) : Bool :=
  match s.data.reverse with
  | d :: i :: _ => d.toLower = 'd' && i.toLower = 'i'
  | _ => false

/-- `/(Ids)$/i.test(name)`. -/
def endsInIdsCI (s : String) : Bool :=
  match s.data.reverse with
  | c :: d :: i :: _ => c.toLower = 's' && d.toLower = 'd' && i.toLower = 'i'
  | _ => false

/-- `getRelationAlias`: `none` models the `null` returns (no relation, falsy
relation type, or unrecognized relation type). -/
def getRelationAlias (field : FieldDef) : Option String :=
  match field.relation with
  | none => none
  | some rel =>
      if rel.type.isEmpty then none
      else
        let baseName := field.name
        if rel.type = "MANY_TO_ONE" || rel.type = "ONE_TO_ONE" then
          if endsInIdCI baseName then some baseName
          else some (baseName ++ "Id")
        else if rel.type = "ONE_TO_MANY" || rel.type = "MANY_TO_MANY" then
          if endsInIdsCI baseName then some baseName
          else if jsEndsWith baseName "s" then some (baseName ++ "Ids")
          else some (baseName ++ "Ids")
        else none

end SchemaLoader

/-- One entry of a compiled contract's `relationMetadata`. -/
structure RelationMeta where
  name : String
  /-- The source names this member `alias`; `alias` is reserved in Lean. -/
  aliasName : Option String := none
  relationType : String
  targetNameSingular : JValue := .undefined
  targetNamePlural : JValue := .undefined
  targetLabelSingular : JValue := .undefined
  targetLabelPlural : JValue := .undefined

/-- A compiled object contract: the record `generateToolSchema` returns and
the fallback registry hand-builds, consumed by the sanitizer and the tool
synthesizer. -/
structure ObjectSchema where
  nameSingular : String
  namePlural : String
  labelSingular : JValue := .undefined
  labelPlural : JValue := .undefined
  description : JValue := .undefined
  properties : List (String × JValue) := []
  required : List String := []
  fieldMetadata : List FieldDef := []
  relationMetadata : List RelationMeta := []

namespace SchemaLoader

/-- Read through `rel.targetObjectMetadata?.f`. -/
def tmeta (rel : RelationDef) (f : TargetMeta → JValue) : JValue :=
  match rel.targetObjectMetadata with
  | some m => f m
  | none => .undefined

/-- Sub-properties table for FULL_NAME fields. -/
def fullNameProperties : JValue :=
  .obj [("firstName", .obj [("type", .str "string"),
          ("description", .str "First name")]),
        ("lastName", .obj [("type", .str "string"),
          ("description", .str "Last name")]),
        ("middleName", .obj [("type", .str "string"),
          ("description", .str "Middle name")]),
        ("prefix", .obj [("type", .str "string"),
          ("description", .str "Name prefix (e.g., Dr.)")]),
        ("suffix", .obj [("type", .str "string"),
          ("description", .str "Name suffix (e.g., Jr.)")])]

/-- Sub-properties table for ADDRESS fields. -/
def addressProperties : JValue :=
  .obj [("addressLine1", .obj [("type", .str "string"),
          ("description", .str "Primary address line")]),
        ("addressLine2", .obj [("type", .str "string"),
          ("description", .str "Secondary address line")]),
        ("city", .obj [("type", .str "string"),
          ("description", .str "City or locality")]),
        ("state", .obj [("type", .str "string"),
          ("description", .str "State or region")]),
        ("postalCode", .obj [("type", .str "string"),
          ("description", .str "Postal or ZIP code")]),
        ("country", .obj [("type", .str "string"),
          ("description", .str "Country code or name")])]

/-- Sub-properties table for CURRENCY fields. -/
def currencyProperties : JValue :=
  .obj [("amount", .obj [("type", .str "number"),
          ("description", .str "Monetary amount")]),
        ("currency", .obj [("type", .str "string"),
          ("description", .str "Three-letter currency code (ISO 4217)")])]

/-- Item schema for EMAILS / PHONES fields. -/
def emailsPhonesItems : JValue :=
  .obj [("type", .str "object"),
        ("properties", .obj
          [("value", .obj [("type", .str "string"),
             ("description", .str "Contact value")]),
           ("type", .obj [("type", .str "string"),
             ("description", .str "Type label or category")]),
           ("primary", .obj [("type", .str "boolean"),
             ("description",
              .str "Whether this is the primary contact value")])]),
        ("additionalProperties", .bool true)]

/-- Sub-properties table the loader emits for LINKS fields. -/
def linksProperties : JValue :=
  .obj [("primary", .obj [("type", .str "string"),
          ("description", .str "Primary link")]),
        ("secondary", .obj [("type", .str "string"),
          ("description", .str "Secondary link")]),
        ("additional", .obj [("type", .str "array"),
          ("items", .obj [("type", .str "string")]),
          ("description", .str "Additional URLs")])]

/-- Sub-properties table for ACTOR fields. -/
def actorProperties : JValue :=
  .obj [("id", .obj [("type", .str "string"),
          ("description", .str "User or system identifier")]),
        ("type", .obj [("type", .str "string"),
          ("description", .str "Actor type (user, system, integration, etc.)")])]

/-- The `switch (field.type)` body of `buildFieldProperty`, applied to the
base property object. -/
def applyTypeSwitch (field : FieldDef) (property : List (String × JValue)) :
    List (String × JValue) :=
  match field.type with
  | "FULL_NAME" =>
      objSet (objSet (objSet property "type" (.str "object"))
        "properties" fullNameProperties) "additionalProperties" (.bool false)
  | "ADDRESS" =>
      objSet (objSet (objSet property "type" (.str "object"))
        "properties" addressProperties) "additionalProperties" (.bool false)
  | "CURRENCY" =>
      objSet (objSet (objSet (objSet property "type" (.str "object"))
        "properties" currencyProperties)
        "required" (.arr [.str "amount", .str "currency"]))
        "additionalProperties" (.bool false)
  | "RELATION" =>
      match field.relation with
      | none => property
      | some rel =>
          let relationType := rel.type
          let targetLabel :=
            JValue.jsOr (tmeta rel (·.labelSingular))
              (JValue.jsOr (tmeta rel (·.nameSingular)) (.str "record"))
          let property :=
            if relationType = "MANY_TO_ONE" || relationType = "ONE_TO_ONE" then
              objSet (objSet property "type" (.str "string")) "description"
                (.str ("ID of the related " ++ jsString targetLabel))
            else if relationType = "ONE_TO_MANY" ||
                relationType = "MANY_TO_MANY" then
              objSet (objSet property "type" (.str "array")) "items"
                (.obj [("type", .str "string"),
                       ("description",
                        .str ("IDs of related " ++
                          jsString (JValue.jsOr (tmeta rel (·.labelPlural))
                            (.str (jsString targetLabel ++ "s")))))])
            else property
          objSet property "relation"
            (.obj [("type", .str relationType),
                   ("target", tmeta rel (·.namePlural)),
                   ("targetLabel",
                    JValue.jsOr (tmeta rel (·.labelPlural))
                      (tmeta rel (·.namePlural)))])
  | "EMAILS" =>
      objSet (objSet property "type" (.str "array")) "items" emailsPhonesItems
  | "PHONES" =>
      objSet (objSet property "type" (.str "array")) "items" emailsPhonesItems
  | "LINKS" =>
      objSet (objSet (objSet property "type" (.str "object"))
        "properties" linksProperties) "additionalProperties" (.bool true)
  | "ACTOR" =>
      objSet (objSet (objSet property "type" (.str "object"))
        "properties" actorProperties) "additionalProperties" (.bool true)
  | "MULTI_SELECT" =>
      objSet (objSet property "type" (.str "array")) "items"
        (.obj [("type", .str "string")])
  | "ARRAY" =>
      objSet (objSet property "type" (.str "array")) "items"
        (.obj [("type", .str "string")])
  | "RAW_JSON" =>
      objSet (objSet property "type" (.str "object"))
        "additionalProperties" (.bool true)
  | _ => property

/-- `opt => typeof opt === 'string' ? opt : opt.value`.  (In JS this throws
on a `null`/`undefined` option entry; real option lists contain strings or
`{value}` objects, for which the modelling is exact.) -/
def optionValue (opt : JValue) : JValue :=
  match opt with
  | .str s => .str s
  | v => jsGet v "value"

/-- The enum-attachment step at the end of `buildFieldProperty`. -/
def applyOptions (field : FieldDef) (property : List (String × JValue)) :
    List (String × JValue) :=
  match field.options with
  | .arr opts =>
      let values : JValue := .arr (opts.map optionValue)
      let itemsVal := (jlookup property "items").getD .undefined
      if jlookup property "type" = some (.str "array") &&
          JValue.truthy itemsVal then
        match itemsVal with
        | .obj f => objSet property "items" (.obj (objSet f "enum" values))
        | _ => property
      else
        objSet property "enum" values
  | _ => property

/-- The default-attachment step at the end of `buildFieldProperty`. -/
def applyDefault (field : FieldDef) (property : List (String × JValue)) :
    List (String × JValue) :=
  match normalizeDefaultValue field.defaultValue with
  | some d => objSet property "default" d
  | none => property

/-- `buildFieldProperty`: the structural property compiled for one field. -/
def buildFieldProperty (field : FieldDef) : JValue :=
  let baseType := mapFieldType field.type
  let descr := JValue.jsOr field.label (JValue.jsOr field.description .undefined)
  let property : List (String × JValue) :=
    [("type", .str baseType), ("description", descr)]
  .obj (applyDefault field (applyOptions field (applyTypeSwitch field property)))

/-- Accumulator of the `fields.forEach` loop in `generateToolSchema`. -/
structure GenAcc where
  properties : List (String × JValue) := []
  required : List String := []
  relationMetadata : List RelationMeta := []

/-- The alias property injected for a relation whose alias is not yet a
declared property. -/
def aliasPropertyFor (field : FieldDef) (rel : RelationDef) : JValue :=
  if rel.type = "MANY_TO_ONE" || rel.type = "ONE_TO_ONE" then
    .obj [("type", .str "string"),
          ("description",
           .str ("ID of the related " ++
             jsString (JValue.jsOr (tmeta rel (·.labelSingular))
               (JValue.jsOr (tmeta rel (·.nameSingular)) (.str field.name)))))]
  else
    .obj [("type", .str "array"),
          ("items", .obj [("type", .str "string")]),
          ("description",
           .str ("IDs of related " ++
             jsString (JValue.jsOr (tmeta rel (·.labelPlural))
               (JValue.jsOr (tmeta rel (·.namePlural)) (.str field.name)))))]

/-- One iteration of the `fields.forEach` loop in `generateToolSchema`. -/
def genStep (acc : GenAcc) (field : FieldDef) : GenAcc :=
  let properties := objSet acc.properties field.name (buildFieldProperty field)
  let required :=
    if !field.isNullable &&
        (field.defaultValue = .null || field.defaultValue = .undefined) then
      acc.required ++ [field.name]
    else acc.required
  match field.relation with
  | some rel =>
      if field.type = "RELATION" then
        let keyOpt := getRelationAlias field
        let relationMetadata := acc.relationMetadata ++
          [{ name := field.name, aliasName := keyOpt, relationType := rel.type,
             targetNameSingular := tmeta rel (·.nameSingular),
             targetNamePlural := tmeta rel (·.namePlural),
             targetLabelSingular := tmeta rel (·.labelSingular),
             targetLabelPlural := tmeta rel (·.labelPlural) }]
        let properties :=
          match keyOpt with
          | some a =>
              if !a.isEmpty && !objHas properties a then
                objSet properties a (aliasPropertyFor field rel)
              else properties
          | none => properties
        { properties := properties, required := required,
          relationMetadata := relationMetadata }
      else
        { properties := properties, required := required,
          relationMetadata := acc.relationMetadata }
  | none =>
      { properties := properties, required := required,
        relationMetadata := acc.relationMetadata }

/-- `generateToolSchema`: the compiled contract for one object, or `none`
when the object cannot be resolved. -/
def generateToolSchema (metadata : Option Metadata) (name : String) :
    Option ObjectSchema :=
  match getObjectByName metadata name with
  | none => none
  | some object =>
      let fields := getObjectFields metadata object.namePlural
      let acc := fields.foldl genStep {}
      some { nameSingular := object.nameSingular,
             namePlural := object.namePlural,
             labelSingular := object.labelSingular,
             labelPlural := object.labelPlural,
             description := object.description,
             properties := acc.properties,
             required := acc.required,
             fieldMetadata := fields,
             relationMetadata := acc.relationMetadata }

end SchemaLoader

/-!
## Payload sanitizer (`index.js`)
-/

namespace TwentyCRMServer

/-- `getRelationCardinality`'s non-null results. -/
inductive Cardinality where
  | single
  | multiple
deriving DecidableEq

/-- `getRelationCardinality`; `none` models the `null` return for
unrecognized relation types. -/
def getRelationCardinality (relationType : String) : Option Cardinality :=
  if relationType = "MANY_TO_ONE" || relationType = "ONE_TO_ONE" then
    some .single
  else if relationType = "ONE_TO_MANY" || relationType = "MANY_TO_MANY" then
    some .multiple
  else none

/-- The `byName` map of `getRelationInfo`: relations keyed by declared field
name; a `Map` keeps the last `set` for a key, hence the reversed search. -/
def relationByName (schema : ObjectSchema) (key : String) :
    Option RelationMeta :=
  schema.relationMetadata.reverse.find? (fun r => r.name = key)

/-- A relation's alias as `getRelationInfo` registers it: only truthy
aliases enter the `byAlias` map. -/
def truthyAlias (r : RelationMeta) : Option String :=
  match r.aliasName with
  | some a => if a.isEmpty then none else some a
  | none => none

/-- The `byAlias` map of `getRelationInfo`. -/
def relationByAlias (schema : ObjectSchema) (key : String) :
    Option RelationMeta :=
  schema.relationMetadata.reverse.find? (fun r => truthyAlias r = some key)

/-- Membership in `getLinksFieldNames`' set. -/
def isLinksFieldName (schema : ObjectSchema) (key : String) : Bool :=
  schema.fieldMetadata.any (fun f => f.type = "LINKS" && f.name = key)

/-- The canonical LINKS value shape the sanitizer produces for a string. -/
def linksShape (url : String) : JValue :=
  .obj [("primaryLinkUrl", .str url), ("primaryLinkLabel", .str ""),
        ("secondaryLinks", .null)]

/-- `normalizeLinksValue`.  An object carrying none of the three canonical
link keys skips the early return but also fails the string test, so it
reaches the final `return value` unchanged, exactly like the early return. -/
def normalizeLinksValue (value : JValue) : JValue :=
  match value with
  | .null => value
  | .undefined => value
  | .obj fields =>
      if objHas fields "primaryLinkUrl" || objHas fields "primaryLinkLabel" ||
          objHas fields "secondaryLinks" then value
      else value
  | .str s =>
      let trimmed := jsTrim s
      if trimmed.length = 0 then linksShape "" else linksShape trimmed
  | _ => value

/-- Non-`undefined` results of `extractSingleRelationId`: the explicit-clear
`null`, or an extracted id string. -/
inductive SingleId where
  | cleared
  | id (s : String)
deriving DecidableEq

/-- `typeof v === "string" && v.trim().length` guard used on `.id` and
`.value` members, yielding the trimmed string. -/
def trimmedNonempty : Option JValue → Option String
  | some (.str s) => let t := jsTrim s; if t.isEmpty then none else some t
  | _ => none

/-- `extractSingleRelationId`; `none` models the `undefined` return.  The
number case is unconditional because modelled numbers (`Int`) are always
finite.  Arrays and booleans fall through every branch to `undefined`. -/
def extractSingleRelationId : JValue → Option SingleId
  | .null => some .cleared
  | .str s =>
      let trimmed := jsTrim s
      if trimmed.isEmpty then none else some (.id trimmed)
  | .num n => some (.id (toString n))
  | .obj fields =>
      match trimmedNonempty (jlookup fields "id") with
      | some s => some (.id s)
      | none =>
          match trimmedNonempty (jlookup fields "value") with
          | some s => some (.id s)
          | none => none
  | _ => none

/-- The `explicitClear` test of `extractMultipleRelationIds`. -/
def isExplicitClear (value : JValue) : Bool :=
  value = .null ||
    (match value with
     | .arr xs => xs.isEmpty
     | .obj fields =>
         match jlookup fields "ids" with
         | some (.arr ids) => ids.isEmpty
         | _ => false
     | _ => false)

/-- The `collectIds` helper: the SINGLE rule per element, with both
`undefined` and `null` collapsed to "no id". -/
def collectIds (candidate : JValue) : Option String :=
  match extractSingleRelationId candidate with
  | some (.id s) => some s
  | _ => none

/-- Candidate selection of `extractMultipleRelationIds`: an array's
elements, a bare string/number, an object's `.ids` array, else its `.id`
member when present and not `undefined`. -/
def multipleCandidates (value : JValue) : List JValue :=
  match value with
  | .arr xs => xs
  | .str _ => [value]
  | .num _ => [value]
  | .obj fields =>
      match jlookup fields "ids" with
      | some (.arr ids) => ids
      | _ =>
          match jlookup fields "id" with
          | some .undefined => []
          | some idv => [idv]
          | none => []
  | _ => []

/-- `Array.from(new Set(ids))`: de-duplication keeping first occurrences. -/
def dedupeKeepFirst : List String → List String → List String
  | [], _ => []
  | x :: xs, seen =>
      if seen.contains x then dedupeKeepFirst xs seen
      else x :: dedupeKeepFirst xs (x :: seen)

/-- The `ids` array the `candidates.forEach` push loop builds: the SINGLE
rule per element, empty and unusable elements dropped. -/
def usableIds (candidates : List JValue) : List String :=
  candidates.filterMap (fun candidate =>
    match collectIds candidate with
    | some s => if s.isEmpty then none else some s
    | none => none)

/-- `extractMultipleRelationIds`; `none` models the `undefined` return
("nothing usable supplied, key omitted"). -/
def extractMultipleRelationIds (value : JValue) : Option (List String) :=
  let explicitClear := isExplicitClear value
  if value = .null then some []
  else
    let ids := usableIds (multipleCandidates value)
    if ids.isEmpty then
      if explicitClear then some [] else none
    else
      some (dedupeKeepFirst ids [])

/-- `normalizeRelationValue`: the object merged into the sanitized payload
for a relation matched by declared field name. -/
def normalizeRelationValue (value : JValue) (relation : RelationMeta) :
    List (String × JValue) :=
  let key :=
    match relation.aliasName with
    | some a => if a.isEmpty then relation.name else a
    | none => relation.name
  if key.isEmpty then []
  else
    match getRelationCardinality relation.relationType with
    | some .single =>
        match extractSingleRelationId value with
        | none => []
        | some .cleared => [(key, .null)]
        | some (.id s) => [(key, .str s)]
    | _ =>
        match extractMultipleRelationIds value with
        | none => []
        | some ids => [(key, .arr (ids.map (fun s => .str s)))]

/-- `normalizeRelationAliasValue`; `none` models `undefined` (key not
set). -/
def normalizeRelationAliasValue (value : JValue) (relation : RelationMeta) :
    Option JValue :=
  match getRelationCardinality relation.relationType with
  | some .single =>
      match extractSingleRelationId value with
      | none => none
      | some .cleared => some .null
      | some (.id s) => some (.str s)
  | _ =>
      match extractMultipleRelationIds value with
      | none => none
      | some ids => some (.arr (ids.map (fun s => .str s)))

/-- `Object.entries(payload)` after the `!payload || typeof payload !==
"object"` guard: `none` yields the early `{}` return; arrays enumerate with
stringified indices. -/
def jsEntries : JValue → Option (List (String × JValue))
  | .obj fields => some fields
  | .arr xs => some (xs.enum.map (fun p => (toString p.1, p.2)))
  | _ => none

/-- One iteration of the sanitizer's `for (const [key, value] of ...)`
loop. -/
def sanitizeStep (schema : ObjectSchema) (sanitized : List (String × JValue))
    (entry : String × JValue) : List (String × JValue) :=
  let key := entry.1
  let value := entry.2
  if value = .undefined then sanitized
  else
    match relationByName schema key with
    | some relation =>
        (normalizeRelationValue value relation).foldl
          (fun acc p => objSet acc p.1 p.2) sanitized
    | none =>
        match relationByAlias schema key with
        | some relation =>
            match normalizeRelationAliasValue value relation with
            | some v => objSet sanitized key v
            | none => sanitized
        | none =>
            if isLinksFieldName schema key then
              objSet sanitized key (normalizeLinksValue value)
            else
              objSet sanitized key value

/-- `sanitizePayload`: the sanitized payload as an object field list, with
the trailing unconditional `delete sanitized.id`. -/
def sanitizePayload (payload : JValue) (schema : ObjectSchema) :
    List (String × JValue) :=
  match jsEntries payload with
  | none => []
  | some entries => objDelete (entries.foldl (sanitizeStep schema) []) "id"

end TwentyCRMServer

namespace TwentyCRMServer

/-- The `readOnlyNames` set of `buildWritableProperties`. -/
def readOnlyNames : List String :=
  ["createdAt", "updatedAt", "deletedAt", "createdBy", "updatedBy",
   "searchVector", "position"]

/-- `fieldMap.get(name).type`: a `Map` built from `fieldMetadata` keeps the
last entry per name. -/
def fieldTypeOf (fieldMetadata : List FieldDef) (name : String) :
    Option String :=
  (fieldMetadata.reverse.find? (fun f => f.name = name)).map (·.type)

/-- The per-property filter of `buildWritableProperties`. -/
def writableFilter (schema : ObjectSchema) (p : String × JValue) : Bool :=
  if readOnlyNames.contains p.1 then false
  else
    match fieldTypeOf schema.fieldMetadata p.1 with
    | some t => !(t = "POSITION")
    | none => true

/-- `buildWritableProperties`: read-only and POSITION-typed properties
removed, falling back to the full (shallow-copied) property map when that
removal would leave nothing.  Shallow copies are identities in the pure
model. -/
def buildWritableProperties (schema : ObjectSchema) : List (String × JValue) :=
  let writable := schema.properties.filter (writableFilter schema)
  if writable.isEmpty then schema.properties else writable

/-- One synthesized operation descriptor (name, description and input
contract). -/
structure ToolDef where
  name : String
  description : String
  properties : List (String × JValue)
  required : List String
  additionalProperties : Option Bool := none

/-- `(labelSingular || nameSingular).toLowerCase()`. -/
def baseLabel (label : JValue) (name : String) : String :=
  jsToLower (jsString (JValue.jsOr label (.str name)))

/-- The `filters` property of a list tool. -/
def listFiltersProperty (schema : ObjectSchema)
    (filterProperties : List (String × JValue)) : JValue :=
  .obj [("type", .str "object"),
        ("description",
         .str ("Additional key/value filters supported by the " ++
           schema.namePlural ++ " REST endpoint")),
        ("properties", .obj filterProperties),
        ("additionalProperties", .bool true)]

/-- The `{id}` input property shared by the get/update/delete tools. -/
def idPropertyFor (schema : ObjectSchema) : List (String × JValue) :=
  [("id", .obj [("type", .str "string"),
     ("description",
      .str (jsString (JValue.jsOr schema.labelSingular
        (.str schema.nameSingular)) ++ " ID"))])]

/-- The five CRUD operation descriptors `generateToolsFromSchema` emits for
one object contract (the cross-cutting global tools are appended separately
by the source and carry no per-object input contract). -/
def crudToolsForSchema (schema : ObjectSchema) : List ToolDef :=
  let createProperties := buildWritableProperties schema
  let createRequired :=
    schema.required.filter (fun fieldName => objHas createProperties fieldName)
  let idProperty : List (String × JValue) := idPropertyFor schema
  let baseLabelSingular := baseLabel schema.labelSingular schema.nameSingular
  let baseLabelPlural := baseLabel schema.labelPlural schema.namePlural
  let createDescription :=
    if JValue.truthy schema.description then
      "Create a new " ++ baseLabelSingular ++ " (" ++
        jsTrim (jsString schema.description) ++ ")"
    else
      "Create a new " ++ baseLabelSingular ++ " in Twenty CRM"
  let filterProperties := createProperties
  [{ name := "create_" ++ schema.nameSingular,
     description := createDescription,
     properties := createProperties,
     required := createRequired,
     additionalProperties := some true },
   { name := "get_" ++ schema.nameSingular,
     description := "Get a " ++ baseLabelSingular ++ " by ID",
     properties := idProperty,
     required := ["id"] },
   { name := "update_" ++ schema.nameSingular,
     description := "Update an existing " ++ baseLabelSingular,
     properties := idProperty ++ createProperties,
     required := ["id"],
     additionalProperties := some true },
   { name := "list_" ++ schema.namePlural,
     description := "List " ++ baseLabelPlural ++ " with optional filters",
     properties :=
       [("limit", .obj [("type", .str "number"),
          ("description",
           .str "Number of results to return (default: 20)"),
          ("default", .num 20)]),
        ("offset", .obj [("type", .str "number"),
          ("description",
           .str "Number of results to skip before starting the page (default: 0)"),
          ("default", .num 0)]),
        ("search", .obj [("type", .str "string"),
          ("description",
           .str ("Search term applied to " ++ baseLabelPlural))]),
        ("filters", listFiltersProperty schema filterProperties)],
     required := [],
     additionalProperties := some true },
   { name := "delete_" ++ schema.nameSingular,
     description := "Delete a " ++ baseLabelSingular,
     properties := idProperty,
     required := ["id"] }]

/-!
### Result normalizer
-/

/-- `extractRecords`: the first array among the response itself and its
`data`, `items`, `records` members; `none` models `undefined`. -/
def extractRecords : JValue → Option (List JValue)
  | .arr xs => some xs
  | .obj fields =>
      match jlookup fields "data" with
      | some (.arr xs) => some xs
      | _ =>
          match jlookup fields "items" with
          | some (.arr xs) => some xs
          | _ =>
              match jlookup fields "records" with
              | some (.arr xs) => some xs
              | _ => none
  | _ => none

/-- `typeof v === "object"`. -/
def typeofObject : JValue → Bool
  | .null => true
  | .arr _ => true
  | .obj _ => true
  | _ => false

/-- The fixed top-level pagination key set. -/
def paginationKeys : List String :=
  ["nextCursor", "prevCursor", "hasNextPage", "hasPreviousPage", "total",
   "totalCount"]

/-- `extractPagination`; `none` models the `null` return.  Array responses
reach the key scan but carry none of the named members, hence `none`. -/
def extractPagination (response : JValue) : Option JValue :=
  match response with
  | .obj fields =>
      let pageInfo := (jlookup fields "pageInfo").getD .undefined
      if JValue.truthy pageInfo && typeofObject pageInfo then some pageInfo
      else
        let meta := (jlookup fields "meta").getD .undefined
        let metaHit :=
          JValue.truthy meta && typeofObject meta &&
            (JValue.truthy (jsGet meta "pagination") ||
             JValue.truthy (jsGet meta "page") ||
             JValue.truthy (jsGet meta "total") ||
             JValue.truthy (jsGet meta "count"))
        if metaHit then
          some (JValue.jsOr (jsGet meta "pagination")
            (JValue.jsOr (jsGet meta "page") meta))
        else if paginationKeys.any (fun key => objHas fields key) then
          some (.obj (paginationKeys.foldl (fun acc key =>
            if objHas fields key then
              objSet acc key ((jlookup fields key).getD .undefined)
            else acc) []))
        else none
  | _ => none

/-- `resolveTotalFromPagination`: the first of
`totalCount/total/totalItems/count` holding a number; `undefined`
otherwise. -/
def resolveTotalFromPagination (pagination : JValue) : JValue :=
  if JValue.truthy pagination then
    match ["totalCount", "total", "totalItems", "count"].findSome?
        (fun key => match jsGet pagination key with
          | .num n => some (JValue.num n)
          | _ => none) with
    | some v => v
    | none => .undefined
  else .undefined

/-- `resolveHasNextFromPagination`. -/
def resolveHasNextFromPagination (pagination : JValue) : JValue :=
  match pagination with
  | .obj fields =>
      match jlookup fields "hasNextPage" with
      | some (.bool b) => .bool b
      | _ =>
          match jlookup fields "hasMore" with
          | some (.bool b) => .bool b
          | _ =>
              if objHas fields "nextCursor" then
                .bool (JValue.truthy ((jlookup fields "nextCursor").getD
                  .undefined))
              else .undefined
  | _ => .undefined

/-- `buildListPayload`: items/summary/pagination assembly; when no record
array is found, non-object responses are returned as-is while object
responses are wrapped with a `raw` member. -/
def buildListPayload (response : JValue) : JValue :=
  let itemsFound := extractRecords response
  let paginationFound := extractPagination response
  let payload : List (String × JValue) := []
  let payload :=
    match itemsFound with
    | some items =>
        objSet (objSet payload "items" (.arr items)) "summary"
          (.obj [("count", .num items.length)])
    | none => payload
  let payload :=
    match paginationFound with
    | some pagination =>
        let summaryFields :=
          match jlookup payload "summary" with
          | some (.obj f) => f
          | _ => []
        objSet (objSet payload "pagination" pagination) "summary"
          (.obj (objSet (objSet summaryFields "total"
            (resolveTotalFromPagination pagination)) "hasNextPage"
            (resolveHasNextFromPagination pagination)))
    | none => payload
  match itemsFound with
  | none =>
      if typeofObject response && response ≠ .null then
        .obj (objSet payload "raw" response)
      else
        response
  | some _ => .obj (objSet payload "raw" response)

end TwentyCRMServer

namespace TwentyCRMServer

/-- The `if (id) return id` filter: a resolved id survives only when
truthy (non-empty). -/
def truthyId : Option String → Option String
  | some s => if s.isEmpty then none else some s
  | none => none

mutual

/-- `extractResourceId`: resolve a created record's id from a response —
direct `id`, then nested `data`, then nested `record`, recursing into
arrays by the first resolvable element; `none` models the `null` return. -/
def extractResourceId : JValue → Option String
  | .null => none
  | .undefined => none
  | .bool _ => none
  | .str s => some s
  | .num n => some (toString n)
  | .arr items => extractResourceIdFromList items
  | .obj fields =>
      let fromId :=
        match jlookup fields "id" with
        | some idv =>
            if JValue.truthy idv then
              some (match idv with
                    | .str s => s
                    | v => jsString v)
            else none
        | none => none
      match fromId with
      | some s => some s
      | none =>
          match truthyId (extractResourceIdMember fields "data") with
          | some s => some s
          | none => truthyId (extractResourceIdMember fields "record")

/-- Recursion into a named member when it is present and not `undefined`
(the `response.data !== undefined` / `response.record !== undefined`
guards). -/
def extractResourceIdMember (fields : List (String × JValue)) (key : String) :
    Option String :=
  match fields with
  | [] => none
  | (k, v) :: rest =>
      if k = key then
        if v = .undefined then none else extractResourceId v
      else extractResourceIdMember rest key

/-- The `for (const item of response)` loop of the array case. -/
def extractResourceIdFromList : List JValue → Option String
  | [] => none
  | item :: rest =>
      match truthyId (extractResourceId item) with
      | some s => some s
      | none => extractResourceIdFromList rest

end

/-!
### Composite note-linking operation
-/

/-- Lexicographic string comparison over the character lists (the code-unit
order JS's default `Array.prototype.sort` comparator uses on these ASCII
keys); `String`'s own order relation does not reduce in the kernel. -/
def charListLe : List Char → List Char → Bool
  | [], _ => true
  | _ :: _, [] => false
  | a :: as, b :: bs => if a = b then charListLe as bs else decide (a < b)

def jsStrLe (a b : String) : Bool := charListLe a.data b.data

/-- `Object.keys(request).sort()`: insertion sort with the code-unit string
order. -/
def insertSorted (s : String) : List String → List String
  | [] => [s]
  | x :: xs => if jsStrLe s x then s :: x :: xs else x :: insertSorted s xs

def sortStrings (l : List String) : List String := l.foldr insertSorted []

/-- The deduplication key of `buildNoteTargetRequests.addRequest`: the
request's key:value pairs sorted by key and joined with `|`. -/
def requestKey (request : List (String × JValue)) : String :=
  String.intercalate "|"
    ((sortStrings (request.map Prod.fst)).map (fun key =>
      key ++ ":" ++ jsString ((jlookup request key).getD .undefined)))

/-- State of the `addRequest` closure: seen dedupe keys and the emitted
request list. -/
structure ReqAcc where
  dedupe : List String := []
  requests : List (List (String × JValue)) := []

/-- `addRequest`. -/
def addRequest (acc : ReqAcc) (request : List (String × JValue)) : ReqAcc :=
  let normalized := requestKey request
  if normalized.isEmpty || acc.dedupe.contains normalized then acc
  else
    { dedupe := acc.dedupe ++ [normalized],
      requests := acc.requests ++ [request] }

/-- `buildNoteTargetRequests`.  A non-object `targets` entry is skipped; an
array entry passes the `typeof` test in JS but carries none of the three
named properties, so its request stays at the bare `{noteId}` of length one
and is likewise never added. -/
def buildNoteTargetRequests (noteId personId companyId targets : JValue) :
    List (List (String × JValue)) :=
  let acc := addRequest {} [("noteId", noteId), ("personId", personId)]
  let acc :=
    if JValue.truthy companyId then
      addRequest acc [("noteId", noteId), ("companyId", companyId)]
    else acc
  let acc :=
    match targets with
    | .arr ts =>
        ts.foldl (fun (acc : ReqAcc) (target : JValue) =>
          match target with
          | .obj _ =>
              let request := [("noteId", noteId)]
              let request :=
                if JValue.truthy (jsGet target "personId") then
                  request ++ [("personId", jsGet target "personId")]
                else request
              let request :=
                if JValue.truthy (jsGet target "companyId") then
                  request ++ [("companyId", jsGet target "companyId")]
                else request
              let request :=
                if JValue.truthy (jsGet target "workspaceMemberId") then
                  request ++ [("workspaceMemberId",
                    jsGet target "workspaceMemberId")]
                else request
              if request.length > 1 then addRequest acc request else acc
          | _ => acc) acc
    | _ => acc
  acc.requests

/-- One HTTP submission `createNoteForPerson` performs, in order. -/
inductive Submission where
  | note (payload : List (String × JValue))
  | noteTarget (payload : List (String × JValue))
deriving DecidableEq

/-- `!v || typeof v !== "object"` rejection test (arrays count as
objects). -/
def typeofNonNullObject (v : JValue) : Bool :=
  JValue.truthy v && typeofObject v

/-- The submission trace of `createNoteForPerson`, parameterized by the two
contracts the registry supplies and by the response of the note-creation
POST.  On the success path the note POST comes first, followed by one
noteTargets POST per built link request, sequentially in list order; error
returns model the `throw`s.  (The note POST has already happened when the
id-extraction or no-target errors are raised; the trace is the complete
submission list only on the success path, which is all the claims
quantify over.) -/
def createNoteForPersonTrace (personId note companyId targets : JValue)
    (noteSchema noteTargetSchema : ObjectSchema) (noteResponse : JValue) :
    Except String (List Submission) :=
  if !JValue.truthy personId then .error "personId is required"
  else if !typeofNonNullObject note then .error "note object is required"
  else
    let sanitizedNote := sanitizePayload note noteSchema
    if sanitizedNote.isEmpty then
      .error "No note fields provided; specify title, body, or other fields"
    else
      match truthyId (extractResourceId noteResponse) with
      | none => .error "Unable to determine created note ID from response"
      | some noteId =>
          let targetRequests :=
            buildNoteTargetRequests (.str noteId) personId companyId targets
          if targetRequests.isEmpty then
            .error "No note targets resolved; provide at least one person/company to link"
          else
            .ok (Submission.note sanitizedNote ::
              targetRequests.map (fun r =>
                Submission.noteTarget (sanitizePayload (.obj r)
                  noteTargetSchema)))

/-- The hand-authored `noteTargets` fallback definition of
`getFallbackDefinition`: three SINGLE relations with their aliases. -/
def noteTargetsFallbackRelations : List RelationMeta :=
  [{ name := "note", aliasName := some "noteId",
     relationType := "MANY_TO_ONE",
     targetNameSingular := .str "note", targetNamePlural := .str "notes",
     targetLabelSingular := .str "Note", targetLabelPlural := .str "Notes" },
   { name := "person", aliasName := some "personId",
     relationType := "MANY_TO_ONE",
     targetNameSingular := .str "person", targetNamePlural := .str "people",
     targetLabelSingular := .str "Person",
     targetLabelPlural := .str "People" },
   { name := "company", aliasName := some "companyId",
     relationType := "MANY_TO_ONE",
     targetNameSingular := .str "company",
     targetNamePlural := .str "companies",
     targetLabelSingular := .str "Company",
     targetLabelPlural := .str "Companies" }]

/-- The `noteTargets` properties of `getFallbackDefinition`. -/
def noteTargetsFallbackProperties : List (String × JValue) :=
  [("noteId", .obj [("type", .str "string"),
     ("description", .str "ID of the note to link")]),
   ("personId", .obj [("type", .str "string"),
     ("description", .str "Person ID to attach")]),
   ("companyId", .obj [("type", .str "string"),
     ("description", .str "Optional company ID")])]

/-- The `noteTargets` contract as `buildFallbackRegistry` would register it
(labels capitalized from the name pair, empty `fieldMetadata`). -/
def noteTargetsFallbackSchema : ObjectSchema :=
  { nameSingular := "noteTarget", namePlural := "noteTargets",
    labelSingular := .str "NoteTarget", labelPlural := .str "NoteTargets",
    description := .str "Generic notetargets operations",
    properties := noteTargetsFallbackProperties,
    required := [],
    fieldMetadata := [],
    relationMetadata := noteTargetsFallbackRelations }

end TwentyCRMServer

/-!
## Helper lemmas about the object-field operations
-/

theorem find?_objSet_map_ne (l : List (String × JValue)) (k k' : String)
    (v : JValue) (h : k' ≠ k) :
    (l.map (fun p => if p.1 = k then (k, v) else p)).find?
        (fun p => p.1 = k') =
      l.find? (fun p => p.1 = k') := by
  induction l with
  | nil => simp
  | cons p rest ih =>
      by_cases hp : p.1 = k
      · have hk : ¬ (k = k') := fun hc => h hc.symm
        have hp' : ¬ (p.1 = k') := by
          rw [hp]; exact hk
        simp [hp, hk, hp', List.find?_cons, ih]
      · by_cases hpk : p.1 = k'
        · simp [hp, hpk, h, List.find?_cons]
        · simp [hp, hpk, List.find?_cons, ih]

theorem find?_objSet_map_self (l : List (String × JValue)) (k : String)
    (v : JValue) (h : l.any (fun p => p.1 = k) = true) :
    (l.map (fun p => if p.1 = k then (k, v) else p)).find?
        (fun p => p.1 = k) = some (k, v) := by
  induction l with
  | nil => simp at h
  | cons p rest ih =>
      by_cases hp : p.1 = k
      · simp [hp, List.find?_cons]
      · have hrest : rest.any (fun p => p.1 = k) = true := by
          simpa [List.any_cons, hp] using h
        simp [hp, List.find?_cons, ih hrest]

theorem jlookup_objSet_self (l : List (String × JValue)) (k : String)
    (v : JValue) : jlookup (objSet l k v) k = some v := by
  unfold objSet jlookup
  by_cases hany : l.any (fun p => p.1 = k) = true
  · simp [hany, find?_objSet_map_self l k v hany]
  · have hany' : ∀ (x : JValue), (k, x) ∉ l := by simpa using hany
    have hnone : l.find? (fun p => p.1 = k) = none := by
      rw [List.find?_eq_none]
      rintro ⟨a, b⟩ hp hc
      simp only [decide_eq_true_eq] at hc
      subst hc
      exact hany' b hp
    simp [hany, List.find?_append, hnone]

theorem jlookup_objSet_ne (l : List (String × JValue)) (k k' : String)
    (v : JValue) (h : k' ≠ k) :
    jlookup (objSet l k v) k' = jlookup l k' := by
  unfold objSet jlookup
  by_cases hany : l.any (fun p => p.1 = k) = true
  · simp [hany, find?_objSet_map_ne l k k' v h]
  · simp [hany, List.find?_append, Ne.symm h]

/-!
## Claim theorems
-/

theorem objDelete_all_ne (l : List (String × JValue)) (key : String) :
    (objDelete l key).all (fun p => p.1 != key) = true := by
  simp only [objDelete, List.all_eq_true, bne_iff_ne, ne_eq]
  intro p hp
  have := List.mem_filter.mp hp
  simpa using this.2

/-- C6: for every input payload and every object contract, the object
returned by `sanitizePayload` contains no `id` key. -/
theorem sanitizePayload_never_emits_id (payload : JValue)
    (schema : ObjectSchema) :
    (TwentyCRMServer.sanitizePayload payload schema).all
      (fun p => p.1 != "id") = true := by
  unfold TwentyCRMServer.sanitizePayload
  cases TwentyCRMServer.jsEntries payload with
  | none => rfl
  | some entries => exact objDelete_all_ne _ "id"

/-- C8: link normalization is idempotent and shape-fixing — an object
already carrying any canonical link key passes through unchanged, a string
(empty included) is wrapped as the canonical trimmed shape, and every
non-string value (null, undefined, numbers, booleans, arrays, and objects
alike) passes through unchanged; consequently normalizing an
already-normalized value returns it unchanged. -/
theorem normalizeLinksValue_idempotent_and_shapes :
    (∀ v : JValue, TwentyCRMServer.normalizeLinksValue
        (TwentyCRMServer.normalizeLinksValue v) =
      TwentyCRMServer.normalizeLinksValue v)
    ∧ (∀ s : String, TwentyCRMServer.normalizeLinksValue (.str s) =
        .obj [("primaryLinkUrl", .str (jsTrim s)),
              ("primaryLinkLabel", .str ""), ("secondaryLinks", .null)])
    ∧ (∀ fields : List (String × JValue),
        (objHas fields "primaryLinkUrl" || objHas fields "primaryLinkLabel" ||
            objHas fields "secondaryLinks") = true →
        TwentyCRMServer.normalizeLinksValue (.obj fields) = .obj fields)
    ∧ (∀ v : JValue, (∀ s : String, v ≠ .str s) →
        TwentyCRMServer.normalizeLinksValue v = v) := by
  have hshape : ∀ s : String, TwentyCRMServer.normalizeLinksValue (.str s) =
      .obj [("primaryLinkUrl", .str (jsTrim s)),
            ("primaryLinkLabel", .str ""), ("secondaryLinks", .null)] := by
    intro s
    by_cases h : (jsTrim s).length = 0
    · have : jsTrim s = "" := by
        cases hst : jsTrim s with
        | mk data =>
            cases data with
            | nil => rfl
            | cons c cs => rw [hst] at h; simp [String.length] at h
      simp [TwentyCRMServer.normalizeLinksValue,
        TwentyCRMServer.linksShape, h, this]
    · simp [TwentyCRMServer.normalizeLinksValue,
        TwentyCRMServer.linksShape, h]
  have hpass : ∀ v : JValue, (∀ s : String, v ≠ .str s) →
      TwentyCRMServer.normalizeLinksValue v = v := by
    intro v hv
    cases v with
    | str s => exact absurd rfl (hv s)
    | null => rfl
    | undefined => rfl
    | bool b => rfl
    | num n => rfl
    | arr xs => rfl
    | obj fields => simp [TwentyCRMServer.normalizeLinksValue]
  refine ⟨?_, hshape, ?_, hpass⟩
  · intro v
    cases v with
    | str s =>
        rw [hshape s]
        exact hpass _ (by intro t h; cases h)
    | null => rfl
    | undefined => rfl
    | bool b => rfl
    | num n => rfl
    | arr xs => rfl
    | obj fields =>
        have h := hpass (.obj fields) (by intro t h; cases h)
        rw [h, h]
  · intro fields _
    simp [TwentyCRMServer.normalizeLinksValue]

/-- C8 witness: the idempotence, string-wrapping, canonical-object and
pass-through clauses evaluated at concrete values. -/
theorem normalizeLinksValue_witness :
    TwentyCRMServer.normalizeLinksValue
        (TwentyCRMServer.normalizeLinksValue (.str "https://x.com")) =
      TwentyCRMServer.normalizeLinksValue (.str "https://x.com")
    ∧ TwentyCRMServer.normalizeLinksValue (.str "https://x.com") =
        .obj [("primaryLinkUrl", .str "https://x.com"),
              ("primaryLinkLabel", .str ""), ("secondaryLinks", .null)]
    ∧ TwentyCRMServer.normalizeLinksValue
        (.obj [("primaryLinkUrl", .str "u")]) =
      .obj [("primaryLinkUrl", .str "u")]
    ∧ TwentyCRMServer.normalizeLinksValue (.bool true) = .bool true := by
  refine ⟨normalizeLinksValue_idempotent_and_shapes.1 _, ?_,
    normalizeLinksValue_idempotent_and_shapes.2.2.1 _ (by decide),
    normalizeLinksValue_idempotent_and_shapes.2.2.2 _ (by intro s h; cases h)⟩
  have h := normalizeLinksValue_idempotent_and_shapes.2.1 "https://x.com"
  simpa using h

/-- The SINGLE-cardinality alias rule exactly as the specification words it:
the name itself when it already ends in `Id` case-insensitively, otherwise
the name with `Id` appended. -/
def deriveAliasSingleSpec (name : String) : String :=
  if SchemaLoader.endsInIdCI name then name else name ++ "Id"

/-- The MULTIPLE-cardinality alias rule exactly as the specification words
it. -/
def deriveAliasMultipleSpec (name : String) : String :=
  if SchemaLoader.endsInIdsCI name then name else name ++ "Ids"

theorem endsInIdCI_append_Id (s : String) :
    SchemaLoader.endsInIdCI (s ++ "Id") = true := by
  unfold SchemaLoader.endsInIdCI
  have hdata : (s ++ "Id").data = s.data ++ ['I', 'd'] := by
    simp [String.data_append]
  rw [hdata]
  simp

theorem endsInIdsCI_append_Ids (s : String) :
    SchemaLoader.endsInIdsCI (s ++ "Ids") = true := by
  unfold SchemaLoader.endsInIdsCI
  have hdata : (s ++ "Ids").data = s.data ++ ['I', 'd', 's'] := by
    simp [String.data_append]
  rw [hdata]
  simp

/-- C7: `getRelationAlias` realizes exactly the specified derivation — for
SINGLE relation types the name itself when it already ends in `Id`
(case-insensitively), else name + `Id`; for MULTIPLE relation types the
name itself when it already ends in `Ids`, else name + `Ids` — and both
derivations are idempotent. -/
theorem getRelationAlias_exact_and_idempotent :
    (∀ (f : FieldDef) (rel : RelationDef), f.relation = some rel →
      (rel.type = "MANY_TO_ONE" ∨ rel.type = "ONE_TO_ONE") →
      SchemaLoader.getRelationAlias f = some (deriveAliasSingleSpec f.name))
    ∧ (∀ (f : FieldDef) (rel : RelationDef), f.relation = some rel →
      (rel.type = "ONE_TO_MANY" ∨ rel.type = "MANY_TO_MANY") →
      SchemaLoader.getRelationAlias f = some (deriveAliasMultipleSpec f.name))
    ∧ (∀ name : String,
        deriveAliasSingleSpec (deriveAliasSingleSpec name) =
          deriveAliasSingleSpec name)
    ∧ (∀ name : String,
        deriveAliasMultipleSpec (deriveAliasMultipleSpec name) =
          deriveAliasMultipleSpec name) := by
  refine ⟨?_, ?_, ?_, ?_⟩
  · intro f rel hrel htype
    unfold SchemaLoader.getRelationAlias deriveAliasSingleSpec
    rw [hrel]
    rcases htype with h | h <;>
      · simp [h]
        exact ⟨by decide, (apply_ite some _ _ _).symm⟩
  · intro f rel hrel htype
    unfold SchemaLoader.getRelationAlias deriveAliasMultipleSpec
    rw [hrel]
    rcases htype with h | h <;>
      · simp [h]
        refine ⟨by decide, ?_⟩
        by_cases hids : SchemaLoader.endsInIdsCI f.name
        · simp [hids]
        · by_cases hs : jsEndsWith f.name "s" <;> simp [hids, hs]
  · intro name
    unfold deriveAliasSingleSpec
    by_cases h : SchemaLoader.endsInIdCI name
    · simp [h]
    · simp [h, endsInIdCI_append_Id]
  · intro name
    unfold deriveAliasMultipleSpec
    by_cases h : SchemaLoader.endsInIdsCI name
    · simp [h]
    · simp [h, endsInIdsCI_append_Ids]

/-- C7 witness: the derivation and its idempotence evaluated on the spec's
own examples (`company` → `companyId`, `noteTargets` → `noteTargetsIds`). -/
theorem getRelationAlias_witness :
    SchemaLoader.getRelationAlias
        { name := "company", type := "RELATION",
          relation := some { type := "MANY_TO_ONE" } } =
      some (deriveAliasSingleSpec "company")
    ∧ SchemaLoader.getRelationAlias
        { name := "noteTargets", type := "RELATION",
          relation := some { type := "ONE_TO_MANY" } } =
      some (deriveAliasMultipleSpec "noteTargets")
    ∧ deriveAliasSingleSpec (deriveAliasSingleSpec "company") =
        deriveAliasSingleSpec "company"
    ∧ deriveAliasSingleSpec "company" = "companyId"
    ∧ deriveAliasMultipleSpec "noteTargets" = "noteTargetsIds" := by
  exact ⟨getRelationAlias_exact_and_idempotent.1 _ _ rfl (Or.inl rfl),
    getRelationAlias_exact_and_idempotent.2.1 _ _ rfl (Or.inl rfl),
    getRelationAlias_exact_and_idempotent.2.2.1 "company",
    by decide, by decide⟩

/-- C1 failing input, target metadata of the relation. -/
def c1TargetMeta : TargetMeta :=
  { nameSingular := .str "noteTarget", namePlural := .str "noteTargets" }

/-- C1 failing input: an active, non-system RELATION field of resolved
MULTIPLE cardinality (`ONE_TO_MANY`) on an active `people` object. -/
def c1NoteTargetsField : FieldDef :=
  { name := "noteTargets", type := "RELATION", isActive := true,
    isSystem := false,
    relation := some { type := "ONE_TO_MANY",
                       targetObjectMetadata := some c1TargetMeta } }

/-- C1 failing input, object level. -/
def c1PersonObject : ObjectDef :=
  { nameSingular := "person", namePlural := "people", isActive := true,
    fields := [c1NoteTargetsField] }

/-- C1 failing input, the loaded metadata. -/
def c1Metadata : Metadata := { objects := [c1PersonObject] }

/-- C1: evaluation of the code at the failing input — `getObjectFields`
drops an active, non-system ONE_TO_MANY RELATION field, so the compiled
contract emits neither a property nor relation metadata for it, although
the specification (and the repository's own tests and changelog) say
MULTIPLE-cardinality relations are included like SINGLE ones. -/
theorem getObjectFields_drops_multiple_relations :
    SchemaLoader.fieldParticipates c1NoteTargetsField = false
    ∧ SchemaLoader.getObjectFields (some c1Metadata) "people" = []
    ∧ (SchemaLoader.generateToolSchema (some c1Metadata) "people").map
        ObjectSchema.properties = some []
    ∧ (SchemaLoader.generateToolSchema (some c1Metadata) "people").map
        ObjectSchema.relationMetadata = some [] :=
  ⟨rfl, rfl, rfl, rfl⟩

/-- C2 concrete input: a plain LINKS field. -/
def c2LinksField : FieldDef := { name := "domainName", type := "LINKS" }

/-- The key list of a compiled property's `properties` sub-object. -/
def subPropertyKeys (property : JValue) : List String :=
  match jsGet property "properties" with
  | .obj fields => fields.map Prod.fst
  | _ => []

/-- C2 counterexample: the compiled structural type of a LINKS field does
not carry the sub-properties `primaryLinkUrl`, `primaryLinkLabel`,
`secondaryLinks` the claim fixes (its sub-properties are `primary`,
`secondary`, `additional`). -/
theorem buildFieldProperty_links_counterexample :
    (subPropertyKeys (SchemaLoader.buildFieldProperty c2LinksField) =
      ["primaryLinkUrl", "primaryLinkLabel", "secondaryLinks"]) = False :=
  eq_false (by decide)

/-- C2 amended: for every field of source kind LINKS, the compiled
structural type is an object whose fixed sub-properties are exactly
`primary` (string), `secondary` (string) and `additional` (array of
string), with additional properties tolerated. -/
theorem buildFieldProperty_links_shape (field : FieldDef)
    (h : field.type = "LINKS") :
    jsGet (SchemaLoader.buildFieldProperty field) "type" = .str "object"
    ∧ jsGet (SchemaLoader.buildFieldProperty field) "properties" =
        SchemaLoader.linksProperties
    ∧ jsGet (SchemaLoader.buildFieldProperty field) "additionalProperties" =
        .bool true := by
  unfold SchemaLoader.buildFieldProperty
  rw [h]
  unfold SchemaLoader.applyTypeSwitch
  simp only [h]
  set base : List (String × JValue) :=
    [("type", .str (SchemaLoader.mapFieldType "LINKS")),
     ("description",
      JValue.jsOr field.label (JValue.jsOr field.description .undefined))]
    with hbase
  set switched : List (String × JValue) :=
    objSet (objSet (objSet base "type" (.str "object"))
      "properties" SchemaLoader.linksProperties)
      "additionalProperties" (.bool true) with hswitched
  have htype : jlookup switched "type" = some (.str "object") := by
    rw [hswitched]
    rw [jlookup_objSet_ne _ _ _ _ (by decide),
      jlookup_objSet_ne _ _ _ _ (by decide), jlookup_objSet_self]
  have hprops : jlookup switched "properties" =
      some SchemaLoader.linksProperties := by
    rw [hswitched]
    rw [jlookup_objSet_ne _ _ _ _ (by decide), jlookup_objSet_self]
  have haddl : jlookup switched "additionalProperties" =
      some (.bool true) := by
    rw [hswitched, jlookup_objSet_self]
  have hkeep : ∀ key : String, key ≠ "enum" →
      jlookup (SchemaLoader.applyOptions field switched) key =
        jlookup switched key := by
    intro key hk
    unfold SchemaLoader.applyOptions
    cases hfo : field.options with
    | arr opts => simp [htype, jlookup_objSet_ne _ _ _ _ hk]
    | null => rfl
    | undefined => rfl
    | bool b => rfl
    | num n => rfl
    | str s => rfl
    | obj o => rfl
  have hkeepDefault : ∀ key : String, key ≠ "default" →
      jlookup (SchemaLoader.applyDefault field
          (SchemaLoader.applyOptions field switched)) key =
        jlookup (SchemaLoader.applyOptions field switched) key := by
    intro key hk
    unfold SchemaLoader.applyDefault
    cases normalizeDefaultValue field.defaultValue with
    | some d => exact jlookup_objSet_ne _ _ _ _ hk
    | none => rfl
  refine ⟨?_, ?_, ?_⟩
  · show ((jlookup (SchemaLoader.applyDefault field
        (SchemaLoader.applyOptions field switched)) "type").getD .undefined) =
      .str "object"
    rw [hkeepDefault "type" (by decide), hkeep "type" (by decide), htype]
    rfl
  · show ((jlookup (SchemaLoader.applyDefault field
        (SchemaLoader.applyOptions field switched))
          "properties").getD .undefined) = SchemaLoader.linksProperties
    rw [hkeepDefault "properties" (by decide),
      hkeep "properties" (by decide), hprops]
    rfl
  · show ((jlookup (SchemaLoader.applyDefault field
        (SchemaLoader.applyOptions field switched))
          "additionalProperties").getD .undefined) = .bool true
    rw [hkeepDefault "additionalProperties" (by decide),
      hkeep "additionalProperties" (by decide), haddl]
    rfl

/-- C2 amended witness: the shape evaluated at the concrete LINKS field. -/
theorem buildFieldProperty_links_shape_witness :
    jsGet (SchemaLoader.buildFieldProperty c2LinksField) "type" =
      .str "object"
    ∧ jsGet (SchemaLoader.buildFieldProperty c2LinksField) "properties" =
        SchemaLoader.linksProperties
    ∧ jsGet (SchemaLoader.buildFieldProperty c2LinksField)
        "additionalProperties" = .bool true :=
  buildFieldProperty_links_shape c2LinksField rfl

theorem objHas_eq_isSome (l : List (String × JValue)) (key : String) :
    objHas l key = (jlookup l key).isSome := by
  induction l with
  | nil => rfl
  | cons p rest ih =>
      by_cases hp : p.1 = key <;> simp [objHas, jlookup, List.find?_cons,
        List.any_cons, hp] <;> simpa [objHas, jlookup] using ih

/-- C3 counterexample: an object response carrying no record array is not
returned unmodified — the normalizer wraps it in a synthetic `{raw}`
object. -/
theorem buildListPayload_counterexample :
    (TwentyCRMServer.buildListPayload (.obj [("message", .str "ok")]) =
      .obj [("message", .str "ok")]) = False :=
  eq_false (by decide)

/-- C3 amended: when no record array can be extracted, a response that is
not a (non-null) object is returned unmodified, while a non-null object
response is wrapped in a synthetic object that carries the raw response
under `raw` (alongside any extracted pagination summary) and has no
`items` member. -/
theorem buildListPayload_no_records (response : JValue)
    (hno : TwentyCRMServer.extractRecords response = none) :
    (TwentyCRMServer.typeofObject response = false ∨ response = .null →
      TwentyCRMServer.buildListPayload response = response)
    ∧ (TwentyCRMServer.typeofObject response = true → response ≠ .null →
      ∃ fields, TwentyCRMServer.buildListPayload response = .obj fields
        ∧ jlookup fields "raw" = some response
        ∧ objHas fields "items" = false) := by
  cases hp : TwentyCRMServer.extractPagination response with
  | none =>
      constructor
      · intro hcase
        rcases hcase with hobj | hnull
        · simp [TwentyCRMServer.buildListPayload, hno, hp, hobj]
        · subst hnull
          simp [TwentyCRMServer.buildListPayload, hno, hp]
      · intro hobj hnull
        refine ⟨objSet [] "raw" response, ?_, ?_, ?_⟩
        · simp [TwentyCRMServer.buildListPayload, hno, hp, hobj, hnull]
        · exact jlookup_objSet_self [] "raw" response
        · rw [objHas_eq_isSome, jlookup_objSet_ne _ _ _ _ (by decide)]
          rfl
  | some pagination =>
      constructor
      · intro hcase
        rcases hcase with hobj | hnull
        · simp [TwentyCRMServer.buildListPayload, hno, hp, hobj]
        · subst hnull
          simp [TwentyCRMServer.extractPagination] at hp
      · intro hobj hnull
        refine ⟨objSet (objSet (objSet [] "pagination" pagination) "summary"
          (.obj (objSet (objSet [] "total"
            (TwentyCRMServer.resolveTotalFromPagination pagination))
            "hasNextPage"
            (TwentyCRMServer.resolveHasNextFromPagination pagination))))
          "raw" response, ?_, ?_, ?_⟩
        · simp [TwentyCRMServer.buildListPayload, hno, hp, hobj, hnull,
            jlookup, objSet]
        · exact jlookup_objSet_self _ "raw" response
        · rw [objHas_eq_isSome, jlookup_objSet_ne _ _ _ _ (by decide),
            jlookup_objSet_ne _ _ _ _ (by decide),
            jlookup_objSet_ne _ _ _ _ (by decide)]
          rfl

/-- C3 witness: the two amended clauses evaluated at concrete responses — a
bare string passes through unmodified, and an object with no record array
is wrapped with itself under `raw` and no `items` member. -/
theorem buildListPayload_no_records_witness :
    TwentyCRMServer.buildListPayload (.str "plain") = .str "plain"
    ∧ (∃ fields,
        TwentyCRMServer.buildListPayload (.obj [("message", .str "ok")]) =
          .obj fields
        ∧ jlookup fields "raw" = some (.obj [("message", .str "ok")])
        ∧ objHas fields "items" = false) :=
  ⟨(buildListPayload_no_records (.str "plain") rfl).1 (Or.inl rfl),
   (buildListPayload_no_records (.obj [("message", .str "ok")]) rfl).2 rfl
     (by decide)⟩

/-- C10: the writable-property projection never leaves a non-empty property
map empty — when removing the read-only names and POSITION-typed fields
would leave nothing, the full original property map is returned instead —
and the synthesized create and update descriptors take their input
properties from exactly this projection (the update descriptor prepending
the `id` property). -/
theorem buildWritableProperties_never_empty (schema : ObjectSchema)
    (hne : schema.properties ≠ []) :
    TwentyCRMServer.buildWritableProperties schema ≠ []
    ∧ (schema.properties.filter (TwentyCRMServer.writableFilter schema) = [] →
        TwentyCRMServer.buildWritableProperties schema = schema.properties)
    ∧ ((TwentyCRMServer.crudToolsForSchema schema).head?.map
        TwentyCRMServer.ToolDef.properties) =
      some (TwentyCRMServer.buildWritableProperties schema)
    ∧ (((TwentyCRMServer.crudToolsForSchema schema).get? 2).map
        TwentyCRMServer.ToolDef.properties) =
      some (TwentyCRMServer.idPropertyFor schema ++
        TwentyCRMServer.buildWritableProperties schema) := by
  refine ⟨?_, ?_, ?_, ?_⟩
  · unfold TwentyCRMServer.buildWritableProperties
    by_cases hf : (schema.properties.filter
        (TwentyCRMServer.writableFilter schema)).isEmpty
    · simpa [hf] using hne
    · have hne' : schema.properties.filter
          (TwentyCRMServer.writableFilter schema) ≠ [] := by
        simpa [List.isEmpty_iff] using hf
      simpa [hf] using hne'
  · intro hfilter
    unfold TwentyCRMServer.buildWritableProperties
    simp [hfilter]
  · simp [TwentyCRMServer.crudToolsForSchema]
  · simp [TwentyCRMServer.crudToolsForSchema]

/-- C10 witness: a contract whose only property is read-only — the
projection falls back to the full property map, and the create descriptor
exposes it. -/
theorem buildWritableProperties_never_empty_witness :
    TwentyCRMServer.buildWritableProperties
        { nameSingular := "x", namePlural := "xs",
          properties := [("createdAt", .obj [])] } ≠ []
    ∧ TwentyCRMServer.buildWritableProperties
        { nameSingular := "x", namePlural := "xs",
          properties := [("createdAt", .obj [])] } =
      [("createdAt", .obj [])]
    ∧ ((TwentyCRMServer.crudToolsForSchema
        { nameSingular := "x", namePlural := "xs",
          properties := [("createdAt", .obj [])] }).head?.map
        TwentyCRMServer.ToolDef.properties) =
      some (TwentyCRMServer.buildWritableProperties
        { nameSingular := "x", namePlural := "xs",
          properties := [("createdAt", .obj [])] }) := by
  have h := buildWritableProperties_never_empty
    { nameSingular := "x", namePlural := "xs",
      properties := [("createdAt", .obj [])] } (by decide)
  exact ⟨h.1, h.2.1 (by decide), h.2.2.1⟩

/-- A contract carrying exactly one relation, with declared field name `k`,
alias `a` and relation type `relType`. -/
def singleRelationSchema (k a relType : String) : ObjectSchema :=
  { nameSingular := "record", namePlural := "records",
    relationMetadata := [{ name := k, aliasName := some a,
                           relationType := relType }] }

/-- The C4 input forms with the id string each of them extracts: an object
with a non-empty (trimmed) string `.id` or, failing that, `.value`; a
non-empty trimmed string; or a (finite) number. -/
def singleIdInput (v : JValue) (s : String) : Prop :=
  (∃ t, v = .str t ∧ jsTrim t = s ∧ s ≠ "")
  ∨ (∃ n : Int, v = .num n ∧ s = toString n)
  ∨ (∃ fields, v = .obj fields ∧
      (TwentyCRMServer.trimmedNonempty (jlookup fields "id") = some s ∨
       (TwentyCRMServer.trimmedNonempty (jlookup fields "id") = none ∧
        TwentyCRMServer.trimmedNonempty (jlookup fields "value") = some s)))

theorem extractSingleRelationId_of_input (v : JValue) (s : String)
    (hv : singleIdInput v s) :
    TwentyCRMServer.extractSingleRelationId v = some (.id s) := by
  rcases hv with ⟨t, rfl, htrim, hs⟩ | ⟨n, rfl, rfl⟩ | ⟨fields, rfl, hobj⟩
  · have hne : s.isEmpty = false := by
      cases hse : s.isEmpty
      · rfl
      · exact absurd (by simpa [String.isEmpty_iff] using hse) hs
    simp [TwentyCRMServer.extractSingleRelationId, htrim, hne]
  · rfl
  · rcases hobj with hid | ⟨hid, hval⟩ <;>
      simp [TwentyCRMServer.extractSingleRelationId, hid]
    simp [hval]

theorem singleIdInput_ne_undefined (v : JValue) (s : String)
    (hv : singleIdInput v s) : v ≠ .undefined := by
  rcases hv with ⟨t, rfl, -, -⟩ | ⟨n, rfl, -⟩ | ⟨fields, rfl, -⟩ <;>
    intro h <;> cases h

/-- C4: sanitizing a payload that maps a SINGLE relation's declared field
name `k` to an extractable value emits the extracted id string under the
alias `a`, and the declared name `k` itself never appears in the output. -/
theorem sanitizePayload_single_relation (k a relType : String) (v : JValue)
    (s : String)
    (hrel : relType = "MANY_TO_ONE" ∨ relType = "ONE_TO_ONE")
    (hka : k ≠ a) (haid : a ≠ "id") (hane : a ≠ "")
    (hv : singleIdInput v s) :
    TwentyCRMServer.sanitizePayload (.obj [(k, v)])
        (singleRelationSchema k a relType) = [(a, .str s)]
    ∧ objHas (TwentyCRMServer.sanitizePayload (.obj [(k, v)])
        (singleRelationSchema k a relType)) k = false := by
  have hx := extractSingleRelationId_of_input v s hv
  have hund := singleIdInput_ne_undefined v s hv
  have haine : a.isEmpty = false := by
    cases hae : a.isEmpty
    · rfl
    · exact absurd (by simpa [String.isEmpty_iff] using hae) hane
  have hcard : TwentyCRMServer.getRelationCardinality relType =
      some .single := by
    rcases hrel with h | h <;> simp [TwentyCRMServer.getRelationCardinality, h]
  have hnorm : TwentyCRMServer.normalizeRelationValue v
      { name := k, aliasName := some a, relationType := relType } =
      [(a, .str s)] := by
    unfold TwentyCRMServer.normalizeRelationValue
    simp [haine, hcard, hx]
  have hsan : TwentyCRMServer.sanitizePayload (.obj [(k, v)])
      (singleRelationSchema k a relType) = [(a, .str s)] := by
    unfold TwentyCRMServer.sanitizePayload TwentyCRMServer.jsEntries
    simp only [List.foldl_cons, List.foldl_nil]
    unfold TwentyCRMServer.sanitizeStep
    simp only [hund, if_neg, TwentyCRMServer.relationByName,
      singleRelationSchema, List.reverse_cons, List.reverse_nil,
      List.nil_append, List.find?_cons]
    rw [if_neg (by simpa using hund)]
    simp only [decide_True, List.find?]
    rw [hnorm]
    simp [objDelete, objSet, haid]
  exact ⟨hsan, by rw [hsan]; simp [objHas, Ne.symm hka]⟩

/-- C4 witness: the spec's round-trip — sanitizing
`{company: {id: "X"}}` against a contract with a SINGLE `company` relation
yields exactly `{companyId: "X"}`, with no `company` key. -/
theorem sanitizePayload_single_relation_witness :
    TwentyCRMServer.sanitizePayload
        (.obj [("company", .obj [("id", .str "X")])])
        (singleRelationSchema "company" "companyId" "MANY_TO_ONE") =
      [("companyId", .str "X")]
    ∧ objHas (TwentyCRMServer.sanitizePayload
        (.obj [("company", .obj [("id", .str "X")])])
        (singleRelationSchema "company" "companyId" "MANY_TO_ONE"))
        "company" = false :=
  sanitizePayload_single_relation "company" "companyId" "MANY_TO_ONE"
    (.obj [("id", .str "X")]) "X" (Or.inl rfl) (by decide) (by decide)
    (by decide)
    (Or.inr (Or.inr ⟨[("id", .str "X")], rfl, Or.inl (by decide)⟩))

theorem sanitizePayload_byName (schema : ObjectSchema) (k : String)
    (v : JValue) (r : RelationMeta) (hund : v ≠ .undefined)
    (hfind : TwentyCRMServer.relationByName schema k = some r) :
    TwentyCRMServer.sanitizePayload (.obj [(k, v)]) schema =
      objDelete ((TwentyCRMServer.normalizeRelationValue v r).foldl
        (fun acc p => objSet acc p.1 p.2) []) "id" := by
  unfold TwentyCRMServer.sanitizePayload TwentyCRMServer.jsEntries
  simp only [List.foldl_cons, List.foldl_nil]
  unfold TwentyCRMServer.sanitizeStep
  rw [if_neg (by simpa using hund), hfind]

theorem relationByName_singleRelationSchema (k a relType : String) :
    TwentyCRMServer.relationByName (singleRelationSchema k a relType) k =
      some { name := k, aliasName := some a, relationType := relType } := by
  simp [TwentyCRMServer.relationByName, singleRelationSchema]

theorem normalizeRelationValue_multiple_eq (k a relType : String)
    (v : JValue) (hrel : relType = "ONE_TO_MANY" ∨ relType = "MANY_TO_MANY")
    (hane : a ≠ "") :
    TwentyCRMServer.normalizeRelationValue v
        { name := k, aliasName := some a, relationType := relType } =
      (match TwentyCRMServer.extractMultipleRelationIds v with
       | none => []
       | some ids => [(a, .arr (ids.map (fun s => .str s)))]) := by
  have haine : a.isEmpty = false := by
    cases hae : a.isEmpty
    · rfl
    · exact absurd (by simpa [String.isEmpty_iff] using hae) hane
  have hcard : TwentyCRMServer.getRelationCardinality relType =
      some .multiple := by
    rcases hrel with h | h <;>
      simp [TwentyCRMServer.getRelationCardinality, h]
  unfold TwentyCRMServer.normalizeRelationValue
  simp only [haine, Bool.false_eq_true, if_false, hcard]

theorem toDigitsCore_ne_nil (b : Nat) :
    ∀ (fuel n : Nat) (ds : List Char), ds ≠ [] →
      Nat.toDigitsCore b fuel n ds ≠ []
  | 0, _, _, h => h
  | fuel + 1, n, ds, _ => by
      unfold Nat.toDigitsCore
      dsimp only
      split
      · exact List.cons_ne_nil _ _
      · exact toDigitsCore_ne_nil b fuel _ _ (List.cons_ne_nil _ _)

theorem natRepr_ne_empty (n : Nat) : Nat.repr n ≠ "" := by
  intro h
  have hlist : Nat.toDigitsCore 10 (n + 1) n [] = [] := by
    have hd := congrArg String.data h
    simpa [Nat.repr, Nat.toDigits, List.asString] using hd
  revert hlist
  unfold Nat.toDigitsCore
  dsimp only
  split
  · exact fun hc => List.noConfusion hc
  · exact toDigitsCore_ne_nil 10 _ _ _ (List.cons_ne_nil _ _)

theorem intToString_ne_empty (n : Int) : (toString n).isEmpty = false := by
  have h : toString n ≠ "" := by
    cases n with
    | ofNat m => exact natRepr_ne_empty m
    | negSucc m =>
        intro h
        rw [show toString (Int.negSucc m) = "-" ++ Nat.repr (m + 1)
          from rfl] at h
        have hd := congrArg String.data h
        simp [String.data_append] at hd
  cases he : (toString n).isEmpty
  · rfl
  · exact absurd ((String.isEmpty_iff _).mp he) h

/-- C5: MULTIPLE-relation sanitization — `null`, an explicit empty array,
and an object with an empty `.ids` array all normalize to an empty array
under the alias (explicit clear); the elements of an array or of a
non-empty `.ids` list, and a bare string or number scalar, are each
converted by the SINGLE rule with unusable elements dropped and duplicates
removed (first occurrences kept) — stated per input form and once for
every non-clear input through its candidate list; and when nothing usable
is extracted from a non-clear input, the alias key is omitted from the
output entirely. -/
theorem sanitizePayload_multiple_relation (k a relType : String)
    (hrel : relType = "ONE_TO_MANY" ∨ relType = "MANY_TO_MANY")
    (haid : a ≠ "id") (hane : a ≠ "") :
    TwentyCRMServer.sanitizePayload (.obj [(k, .null)])
        (singleRelationSchema k a relType) = [(a, .arr [])]
    ∧ TwentyCRMServer.sanitizePayload (.obj [(k, .arr [])])
        (singleRelationSchema k a relType) = [(a, .arr [])]
    ∧ TwentyCRMServer.sanitizePayload (.obj [(k, .obj [("ids", .arr [])])])
        (singleRelationSchema k a relType) = [(a, .arr [])]
    ∧ (∀ xs : List JValue, TwentyCRMServer.usableIds xs ≠ [] →
        TwentyCRMServer.sanitizePayload (.obj [(k, .arr xs)])
            (singleRelationSchema k a relType) =
          [(a, .arr ((TwentyCRMServer.dedupeKeepFirst
            (TwentyCRMServer.usableIds xs) []).map (fun s => .str s)))])
    ∧ (∀ xs : List JValue, xs ≠ [] → TwentyCRMServer.usableIds xs = [] →
        TwentyCRMServer.sanitizePayload (.obj [(k, .arr xs)])
            (singleRelationSchema k a relType) = [])
    ∧ (∀ t s : String, jsTrim t = s → s ≠ "" →
        TwentyCRMServer.sanitizePayload (.obj [(k, .str t)])
            (singleRelationSchema k a relType) = [(a, .arr [.str s])])
    ∧ (∀ xs : List JValue, TwentyCRMServer.usableIds xs ≠ [] →
        TwentyCRMServer.sanitizePayload
            (.obj [(k, .obj [("ids", .arr xs)])])
            (singleRelationSchema k a relType) =
          [(a, .arr ((TwentyCRMServer.dedupeKeepFirst
            (TwentyCRMServer.usableIds xs) []).map (fun s => .str s)))])
    ∧ (∀ n : Int, TwentyCRMServer.sanitizePayload (.obj [(k, .num n)])
        (singleRelationSchema k a relType) =
          [(a, .arr [.str (toString n)])])
    ∧ (∀ v : JValue, v ≠ .undefined → v ≠ .null →
        TwentyCRMServer.usableIds
          (TwentyCRMServer.multipleCandidates v) ≠ [] →
        TwentyCRMServer.sanitizePayload (.obj [(k, v)])
            (singleRelationSchema k a relType) =
          [(a, .arr ((TwentyCRMServer.dedupeKeepFirst
            (TwentyCRMServer.usableIds
              (TwentyCRMServer.multipleCandidates v)) []).map
            (fun s => .str s)))])
    ∧ (∀ v : JValue, v ≠ .undefined → v ≠ .null →
        TwentyCRMServer.isExplicitClear v = false →
        TwentyCRMServer.usableIds
          (TwentyCRMServer.multipleCandidates v) = [] →
        TwentyCRMServer.sanitizePayload (.obj [(k, v)])
            (singleRelationSchema k a relType) = []) := by
  have hbase : ∀ v : JValue, v ≠ .undefined →
      TwentyCRMServer.sanitizePayload (.obj [(k, v)])
          (singleRelationSchema k a relType) =
        objDelete ((match TwentyCRMServer.extractMultipleRelationIds v with
           | none => ([] : List (String × JValue))
           | some ids => [(a, JValue.arr (ids.map (fun s => .str s)))]).foldl
          (fun (acc : List (String × JValue)) (p : String × JValue) =>
            objSet acc p.1 p.2) []) "id" := by
    intro v hund
    rw [sanitizePayload_byName _ k v _ hund
      (relationByName_singleRelationSchema k a relType),
      normalizeRelationValue_multiple_eq k a relType v hrel hane]
  have hclear : ∀ v : JValue, v ≠ .undefined →
      TwentyCRMServer.extractMultipleRelationIds v = some [] →
      TwentyCRMServer.sanitizePayload (.obj [(k, v)])
          (singleRelationSchema k a relType) = [(a, .arr [])] := by
    intro v hund hex
    rw [hbase v hund, hex]
    simp [objSet, objDelete, haid]
  have hgenconv : ∀ v : JValue, v ≠ .undefined → v ≠ .null →
      TwentyCRMServer.usableIds
        (TwentyCRMServer.multipleCandidates v) ≠ [] →
      TwentyCRMServer.sanitizePayload (.obj [(k, v)])
          (singleRelationSchema k a relType) =
        [(a, .arr ((TwentyCRMServer.dedupeKeepFirst
          (TwentyCRMServer.usableIds
            (TwentyCRMServer.multipleCandidates v)) []).map
          (fun s => .str s)))] := by
    intro v hund hnull hne
    have hIsE : (TwentyCRMServer.usableIds
        (TwentyCRMServer.multipleCandidates v)).isEmpty = false := by
      simpa [List.isEmpty_iff] using hne
    have hex : TwentyCRMServer.extractMultipleRelationIds v =
        some (TwentyCRMServer.dedupeKeepFirst
          (TwentyCRMServer.usableIds
            (TwentyCRMServer.multipleCandidates v)) []) := by
      unfold TwentyCRMServer.extractMultipleRelationIds
      simp [hnull, hIsE]
    rw [hbase v hund, hex]
    simp [objSet, objDelete, haid]
  have hgenomit : ∀ v : JValue, v ≠ .undefined → v ≠ .null →
      TwentyCRMServer.isExplicitClear v = false →
      TwentyCRMServer.usableIds
        (TwentyCRMServer.multipleCandidates v) = [] →
      TwentyCRMServer.sanitizePayload (.obj [(k, v)])
          (singleRelationSchema k a relType) = [] := by
    intro v hund hnull hcf hids
    have hex : TwentyCRMServer.extractMultipleRelationIds v = none := by
      unfold TwentyCRMServer.extractMultipleRelationIds
      simp [hnull, hids, hcf]
    rw [hbase v hund, hex]
    rfl
  refine ⟨?_, ?_, ?_, ?_, ?_, ?_, ?_, ?_, hgenconv, hgenomit⟩
  · exact hclear .null (by intro h; cases h) rfl
  · exact hclear (.arr []) (by intro h; cases h) rfl
  · exact hclear (.obj [("ids", .arr [])]) (by intro h; cases h) rfl
  · intro xs hne
    exact hgenconv (.arr xs) (by intro h; cases h) (by intro h; cases h) hne
  · intro xs hxs hids
    have hcf : TwentyCRMServer.isExplicitClear (.arr xs) = false := by
      simpa [TwentyCRMServer.isExplicitClear, List.isEmpty_iff] using hxs
    exact hgenomit (.arr xs) (by intro h; cases h) (by intro h; cases h)
      hcf hids
  · intro t s htrim hs
    have hne : s.isEmpty = false := by
      cases hse : s.isEmpty
      · rfl
      · exact absurd (by simpa [String.isEmpty_iff] using hse) hs
    have hu : TwentyCRMServer.usableIds
        (TwentyCRMServer.multipleCandidates (.str t)) = [s] := by
      simp [TwentyCRMServer.multipleCandidates, TwentyCRMServer.usableIds,
        TwentyCRMServer.collectIds, TwentyCRMServer.extractSingleRelationId,
        htrim, hne]
    have h := hgenconv (.str t) (by intro h; cases h) (by intro h; cases h)
      (by rw [hu]; exact List.cons_ne_nil _ _)
    rw [h, hu]
    rfl
  · intro xs hne
    exact hgenconv (.obj [("ids", .arr xs)]) (by intro h; cases h)
      (by intro h; cases h) hne
  · intro n
    have hu : TwentyCRMServer.usableIds
        (TwentyCRMServer.multipleCandidates (.num n)) = [toString n] := by
      simp [TwentyCRMServer.multipleCandidates, TwentyCRMServer.usableIds,
        TwentyCRMServer.collectIds, TwentyCRMServer.extractSingleRelationId,
        intToString_ne_empty n]
    have h := hgenconv (.num n) (by intro h; cases h) (by intro h; cases h)
      (by rw [hu]; exact List.cons_ne_nil _ _)
    rw [h, hu]
    rfl

/-- C5 witness: the spec's example — sanitizing
`{noteTargets: [{id:"a"}, "b"]}` against a MULTIPLE `noteTargets` relation
yields `{noteTargetsIds: ["a","b"]}` — together with the explicit-clear and
omission clauses at concrete inputs. -/
theorem sanitizePayload_multiple_relation_witness :
    TwentyCRMServer.sanitizePayload
        (.obj [("noteTargets", .arr [.obj [("id", .str "a")], .str "b"])])
        (singleRelationSchema "noteTargets" "noteTargetsIds"
          "ONE_TO_MANY") =
      [("noteTargetsIds", .arr [.str "a", .str "b"])]
    ∧ TwentyCRMServer.sanitizePayload (.obj [("noteTargets", .null)])
        (singleRelationSchema "noteTargets" "noteTargetsIds"
          "ONE_TO_MANY") = [("noteTargetsIds", .arr [])]
    ∧ TwentyCRMServer.sanitizePayload
        (.obj [("noteTargets", .arr [.bool true])])
        (singleRelationSchema "noteTargets" "noteTargetsIds"
          "ONE_TO_MANY") = []
    ∧ TwentyCRMServer.sanitizePayload
        (.obj [("noteTargets", .obj [("ids", .arr [.str "a", .str "a"])])])
        (singleRelationSchema "noteTargets" "noteTargetsIds"
          "ONE_TO_MANY") = [("noteTargetsIds", .arr [.str "a"])]
    ∧ TwentyCRMServer.sanitizePayload (.obj [("noteTargets", .num 7)])
        (singleRelationSchema "noteTargets" "noteTargetsIds"
          "ONE_TO_MANY") = [("noteTargetsIds", .arr [.str "7"])]
    ∧ TwentyCRMServer.sanitizePayload
        (.obj [("noteTargets", .obj [("ids", .arr [.bool true])])])
        (singleRelationSchema "noteTargets" "noteTargetsIds"
          "ONE_TO_MANY") = [] := by
  have h := sanitizePayload_multiple_relation "noteTargets" "noteTargetsIds"
    "ONE_TO_MANY" (Or.inl rfl) (by decide) (by decide)
  refine ⟨?_, h.1, ?_, ?_, ?_, ?_⟩
  · exact (h.2.2.2.1 [.obj [("id", .str "a")], .str "b"]
      (by decide)).trans (by decide)
  · exact h.2.2.2.2.1 [.bool true] (by decide) (by decide)
  · exact (h.2.2.2.2.2.2.1 [.str "a", .str "a"] (by decide)).trans (by decide)
  · exact (h.2.2.2.2.2.2.2.1 7).trans (by decide)
  · exact h.2.2.2.2.2.2.2.2.2 (.obj [("ids", .arr [.bool true])])
      (by intro hc; cases hc) (by intro hc; cases hc) (by decide) (by decide)

theorem truthyId_isEmpty_false {o : Option String} {nid : String}
    (hid : TwentyCRMServer.truthyId o = some nid) : nid.isEmpty = false := by
  cases o with
  | none => cases hid
  | some s =>
      unfold TwentyCRMServer.truthyId at hid
      by_cases hse : s.isEmpty
      · simp [hse] at hid
      · simp [hse] at hid
        subst hid
        simpa using hse

theorem requestKey_note_person (nid : String) :
    TwentyCRMServer.requestKey
        [("noteId", .str nid), ("personId", .str "p1")] =
      "noteId:" ++ nid ++ "|personId:p1" := by
  have h : TwentyCRMServer.requestKey
      [("noteId", .str nid), ("personId", .str "p1")] =
      (("noteId:" ++ nid) ++ "|") ++ "personId:p1" := rfl
  rw [h]
  apply String.ext
  simp [String.data_append, List.append_assoc]

theorem requestKey_note_company (nid : String) :
    TwentyCRMServer.requestKey
        [("noteId", .str nid), ("companyId", .str "c1")] =
      "companyId:c1|noteId:" ++ nid := by
  have h : TwentyCRMServer.requestKey
      [("noteId", .str nid), ("companyId", .str "c1")] =
      ("companyId:c1" ++ "|") ++ ("noteId:" ++ nid) := rfl
  rw [h]
  apply String.ext
  simp [String.data_append, List.append_assoc]

theorem requestKeys_distinct (nid : String) :
    (TwentyCRMServer.requestKey
        [("noteId", .str nid), ("companyId", .str "c1")] =
      TwentyCRMServer.requestKey
        [("noteId", .str nid), ("personId", .str "p1")]) = False := by
  rw [requestKey_note_person, requestKey_note_company]
  apply eq_false
  intro h
  have hlen := congrArg String.length h
  simp only [String.length_append] at hlen
  have h1 : ("companyId:c1|noteId:" : String).length = 20 := by decide
  have h2 : ("noteId:" : String).length = 7 := by decide
  have h3 : ("|personId:p1" : String).length = 12 := by decide
  rw [h1, h2, h3] at hlen
  omega

theorem requestKey_nonempty_person (nid : String) :
    (TwentyCRMServer.requestKey
        [("noteId", .str nid), ("personId", .str "p1")]).isEmpty = false := by
  rw [requestKey_note_person]
  cases h : ("noteId:" ++ nid ++ "|personId:p1").isEmpty
  · rfl
  · exfalso
    have := (String.isEmpty_iff _).mp h
    have hd := congrArg String.data this
    simp [String.data_append] at hd
  
theorem requestKey_nonempty_company (nid : String) :
    (TwentyCRMServer.requestKey
        [("noteId", .str nid), ("companyId", .str "c1")]).isEmpty =
      false := by
  rw [requestKey_note_company]
  cases h : ("companyId:c1|noteId:" ++ nid).isEmpty
  · rfl
  · exfalso
    have := (String.isEmpty_iff _).mp h
    have hd := congrArg String.data this
    simp [String.data_append] at hd

theorem addRequest_first (nid : String) :
    TwentyCRMServer.addRequest {}
        [("noteId", .str nid), ("personId", .str "p1")] =
      { dedupe := [TwentyCRMServer.requestKey
          [("noteId", .str nid), ("personId", .str "p1")]],
        requests := [[("noteId", .str nid), ("personId", .str "p1")]] } := by
  unfold TwentyCRMServer.addRequest
  simp [requestKey_nonempty_person nid]

theorem addRequest_second (nid : String) :
    TwentyCRMServer.addRequest
        { dedupe := [TwentyCRMServer.requestKey
            [("noteId", .str nid), ("personId", .str "p1")]],
          requests := [[("noteId", .str nid), ("personId", .str "p1")]] }
        [("noteId", .str nid), ("companyId", .str "c1")] =
      { dedupe := [TwentyCRMServer.requestKey
          [("noteId", .str nid), ("personId", .str "p1")],
          TwentyCRMServer.requestKey
          [("noteId", .str nid), ("companyId", .str "c1")]],
        requests := [[("noteId", .str nid), ("personId", .str "p1")],
          [("noteId", .str nid), ("companyId", .str "c1")]] } := by
  unfold TwentyCRMServer.addRequest
  have hd : (TwentyCRMServer.requestKey
      [("noteId", JValue.str nid), ("companyId", JValue.str "c1")] =
    TwentyCRMServer.requestKey
      [("noteId", JValue.str nid), ("personId", JValue.str "p1")]) = False :=
    requestKeys_distinct nid
  simp [requestKey_nonempty_company nid, List.contains, hd]

theorem buildNoteTargetRequests_p1_c1 (nid : String) :
    TwentyCRMServer.buildNoteTargetRequests (.str nid) (.str "p1")
        (.str "c1") .undefined =
      [[("noteId", .str nid), ("personId", .str "p1")],
       [("noteId", .str nid), ("companyId", .str "c1")]] := by
  have h : TwentyCRMServer.buildNoteTargetRequests (.str nid) (.str "p1")
      (.str "c1") .undefined =
      (TwentyCRMServer.addRequest (TwentyCRMServer.addRequest {}
        [("noteId", .str nid), ("personId", .str "p1")])
        [("noteId", .str nid), ("companyId", .str "c1")]).requests := rfl
  rw [h, addRequest_first nid, addRequest_second nid]

theorem sanitize_step_alias (schema : ObjectSchema) (key : String)
    (v : JValue) (r : RelationMeta) (acc : List (String × JValue))
    (hname : TwentyCRMServer.relationByName schema key = none)
    (hfind : TwentyCRMServer.relationByAlias schema key = some r)
    (hcard : TwentyCRMServer.getRelationCardinality r.relationType =
      some .single)
    (hstr : ∃ s, v = .str s)
    (hx : TwentyCRMServer.extractSingleRelationId v =
      some (.id (jsString v))) :
    TwentyCRMServer.sanitizeStep schema acc (key, v) = objSet acc key v := by
  obtain ⟨s, rfl⟩ := hstr
  unfold TwentyCRMServer.sanitizeStep
  rw [if_neg (by simp)]
  rw [hname, hfind]
  simp [TwentyCRMServer.normalizeRelationAliasValue, hcard, hx, jsString]

theorem sanitize_target_person (nid : String) (hnidE : nid.isEmpty = false)
    (htrim : jsTrim nid = nid) :
    TwentyCRMServer.sanitizePayload
        (.obj [("noteId", .str nid), ("personId", .str "p1")])
        TwentyCRMServer.noteTargetsFallbackSchema =
      [("noteId", .str nid), ("personId", .str "p1")] := by
  have hxnid : TwentyCRMServer.extractSingleRelationId (.str nid) =
      some (.id (jsString (.str nid))) := by
    simp [TwentyCRMServer.extractSingleRelationId, htrim, hnidE, jsString]
  have hstep1 := sanitize_step_alias TwentyCRMServer.noteTargetsFallbackSchema "noteId" (.str nid) _ [] rfl rfl rfl
    ⟨nid, rfl⟩ hxnid
  have hstep2 := sanitize_step_alias TwentyCRMServer.noteTargetsFallbackSchema "personId" (.str "p1") _
    [("noteId", .str nid)] rfl rfl rfl ⟨"p1", rfl⟩ rfl
  unfold TwentyCRMServer.sanitizePayload TwentyCRMServer.jsEntries
  simp only [List.foldl_cons, List.foldl_nil]
  rw [hstep1, show objSet [] "noteId" (.str nid) =
    [("noteId", .str nid)] from rfl, hstep2]
  rfl

theorem sanitize_target_company (nid : String) (hnidE : nid.isEmpty = false)
    (htrim : jsTrim nid = nid) :
    TwentyCRMServer.sanitizePayload
        (.obj [("noteId", .str nid), ("companyId", .str "c1")])
        TwentyCRMServer.noteTargetsFallbackSchema =
      [("noteId", .str nid), ("companyId", .str "c1")] := by
  have hxnid : TwentyCRMServer.extractSingleRelationId (.str nid) =
      some (.id (jsString (.str nid))) := by
    simp [TwentyCRMServer.extractSingleRelationId, htrim, hnidE, jsString]
  have hstep1 := sanitize_step_alias TwentyCRMServer.noteTargetsFallbackSchema "noteId" (.str nid) _ [] rfl rfl rfl
    ⟨nid, rfl⟩ hxnid
  have hstep2 := sanitize_step_alias TwentyCRMServer.noteTargetsFallbackSchema "companyId" (.str "c1") _
    [("noteId", .str nid)] rfl rfl rfl ⟨"c1", rfl⟩ rfl
  unfold TwentyCRMServer.sanitizePayload TwentyCRMServer.jsEntries
  simp only [List.foldl_cons, List.foldl_nil]
  rw [hstep1, show objSet [] "noteId" (.str nid) =
    [("noteId", .str nid)] from rfl, hstep2]
  rfl

/-- C9: given personId `"p1"`, companyId `"c1"` and a usable note payload,
the composite operation performs exactly one note-creation submission
first, then exactly two deduplicated link submissions —
`{noteId, personId:"p1"}` then `{noteId, companyId:"c1"}` — in that order,
and the deduplication key is the request's key:value pairs sorted by key
and joined with `|`. -/
theorem createNoteForPerson_orchestration (note noteResponse : JValue)
    (noteSchema : ObjectSchema) (nid : String)
    (hn : TwentyCRMServer.typeofNonNullObject note = true)
    (hsan : TwentyCRMServer.sanitizePayload note noteSchema ≠ [])
    (hid : TwentyCRMServer.truthyId
      (TwentyCRMServer.extractResourceId noteResponse) = some nid)
    (htrim : jsTrim nid = nid) :
    TwentyCRMServer.createNoteForPersonTrace (.str "p1") note (.str "c1")
        .undefined noteSchema TwentyCRMServer.noteTargetsFallbackSchema
        noteResponse =
      .ok [.note (TwentyCRMServer.sanitizePayload note noteSchema),
           .noteTarget [("noteId", .str nid), ("personId", .str "p1")],
           .noteTarget [("noteId", .str nid), ("companyId", .str "c1")]]
    ∧ TwentyCRMServer.requestKey
        [("noteId", .str nid), ("personId", .str "p1")] =
      "noteId:" ++ nid ++ "|personId:p1"
    ∧ TwentyCRMServer.requestKey
        [("noteId", .str nid), ("companyId", .str "c1")] =
      "companyId:c1|noteId:" ++ nid := by
  have hnidE := truthyId_isEmpty_false hid
  refine ⟨?_, requestKey_note_person nid, requestKey_note_company nid⟩
  have hsanE : (TwentyCRMServer.sanitizePayload note noteSchema).isEmpty =
      false := by
    simpa [List.isEmpty_iff] using hsan
  simp only [TwentyCRMServer.createNoteForPersonTrace, hn, hsanE, hid,
    buildNoteTargetRequests_p1_c1 nid, List.map_cons, List.map_nil,
    sanitize_target_person nid hnidE htrim,
    sanitize_target_company nid hnidE htrim]
  rfl

/-- C9 witness: the orchestration evaluated on concrete inputs — note
`{title:"T"}` against a plain notes contract, a response nesting the
created id under `data.id`, personId `"p1"` and companyId `"c1"`. -/
theorem createNoteForPerson_orchestration_witness :
    TwentyCRMServer.createNoteForPersonTrace (.str "p1")
        (.obj [("title", .str "T")]) (.str "c1") .undefined
        { nameSingular := "note", namePlural := "notes" }
        TwentyCRMServer.noteTargetsFallbackSchema
        (.obj [("data", .obj [("id", .str "note-xyz")])]) =
      .ok [.note [("title", .str "T")],
           .noteTarget [("noteId", .str "note-xyz"),
             ("personId", .str "p1")],
           .noteTarget [("noteId", .str "note-xyz"),
             ("companyId", .str "c1")]] := by
  have h := createNoteForPerson_orchestration (.obj [("title", .str "T")])
    (.obj [("data", .obj [("id", .str "note-xyz")])])
    { nameSingular := "note", namePlural := "notes" } "note-xyz"
    rfl (by decide) (by decide) (by decide)
  exact h.1.trans (congrArg Except.ok (by decide))
